import Mathlib

/-!
# DS3231 real-time-clock driver: BCD codec, calendar engine and register model

A shallow embedding of `DS3231.cpp` / `DS3231.h`.  Machine integers are natural
numbers reduced modulo `2^8`, `2^16` or `2^32` at the places where the C code
stores into a `uint8_t`, `uint16_t` or `unsigned long`.
-/

set_option maxRecDepth 8000

namespace DS3231

/-! ## BCD codec (`DS3231.cpp`, private section) -/

/-- Source `uint8_t DS3231::_encode(uint8_t value)`:
`((value / 10) << 4) + (value % 10)`, stored in a `uint8_t`. -/
def _encode (value : Nat) : Nat :=
  (((value / 10) <<< 4) + (value % 10)) % 256

/-- Source `uint8_t DS3231::_decode(uint8_t value)`: mask to 7 bits, then
`(decoded & 15) + 10 * ((decoded & (15 << 4)) >> 4)`. -/
def _decode (value : Nat) : Nat :=
  let decoded := value &&& 127
  ((decoded &&& 15) + 10 * ((decoded &&& (15 <<< 4)) >>> 4)) % 256

/-- Source `uint8_t DS3231::_decodeH(uint8_t value)`: branch on bit 7. -/
def _decodeH (value : Nat) : Nat :=
  if value &&& 128 ≠ 0 then
    ((value &&& 15) + (12 * ((value &&& 32) >>> 5))) % 256
  else
    ((value &&& 15) + (10 * ((value &&& 48) >>> 4))) % 256

/-- Source `uint8_t DS3231::_decodeY(uint8_t value)`: as `_decode`, without the mask. -/
def _decodeY (value : Nat) : Nat :=
  ((value &&& 15) + 10 * ((value &&& (15 <<< 4)) >>> 4)) % 256

/-! ## Register map and calendar constants -/

def REG_SEC : Nat := 0x00
def REG_MIN : Nat := 0x01
def REG_HOUR : Nat := 0x02
def REG_DOW : Nat := 0x03
def REG_DATE : Nat := 0x04
def REG_MON : Nat := 0x05
def REG_YEAR : Nat := 0x06
def ALM1_SECONDS : Nat := 0x07
def ALM1_MINUTES : Nat := 0x08
def ALM1_HOURS : Nat := 0x09
def ALM1_DAYDATE : Nat := 0x0A
def ALM2_MINUTES : Nat := 0x0B
def ALM2_HOURS : Nat := 0x0C
def ALM2_DAYDATE : Nat := 0x0D
def REG_CON : Nat := 0x0E
def REG_STATUS : Nat := 0x0F

/-- Alarm mask bit positions `A1M1 .. A1M4` (all bit 7) and `DYDT` (bit 6). -/
def A1M1 : Nat := 7
def A1M2 : Nat := 7
def A1M3 : Nat := 7
def A1M4 : Nat := 7
def DYDT : Nat := 6

/-- Macro `#define SECS_DAY (86400L)` -/
def SECS_DAY : Nat := 86400

/-- Macro `#define LEAPYEAR(year) (!((year) % 4) && (((year) % 100) || !((year) % 400)))` -/
def LEAPYEAR (year : Nat) : Bool :=
  (year % 4 == 0) && ((year % 100 != 0) || (year % 400 == 0))

/-- Macro `#define YEARSIZE(year) (LEAPYEAR(year) ? 366L : 365L)` -/
def YEARSIZE (year : Nat) : Nat :=
  if LEAPYEAR year then 366 else 365

/-- Table `static const uint8_t calender[]`: days in each month of a common year. -/
def calender : List Nat := [31, 28, 31, 30, 31, 30, 31, 31, 30, 31, 30, 31]

/-- Table `byte mArr[12]` of `setDOW()`: the month offsets of the weekday formula. -/
def mArr : List Nat := [6, 2, 2, 5, 0, 3, 5, 1, 4, 6, 2, 4]

/-! ## Data model -/

/-- Record `class Time` of `DS3231.h`; `year` is a `uint16_t`, the other fields `uint8_t`. -/
structure Time where
  hour : Nat
  min : Nat
  sec : Nat
  date : Nat
  mon : Nat
  year : Nat
  dow : Nat
  deriving DecidableEq, Repr

/-- The driver object together with the chip it talks to.
`regs` is the register file of the chip (address to byte), `YEAR0` and `_burstArray`
are the members of `class DS3231`, and `writes` records every register write
transaction put on the bus, oldest first, as `(address, value)`. -/
structure Driver where
  regs : Nat → Nat
  YEAR0 : Nat
  _burstArray : Fin 7 → Nat
  writes : List (Nat × Nat)

/-- A freshly constructed driver (`YEAR0 = 1970` as initialised in `DS3231.h`)
in front of a chip whose registers all read zero. -/
def Driver.fresh : Driver :=
  { regs := fun _ => 0, YEAR0 := 1970, _burstArray := fun _ => 0, writes := [] }

/-! ## Register access layer -/

/-- Modelled from the spec: `_writeRegister` lives in `hardware/*/HW_*.h`, which is
not part of the sources at hand.  Spec 4.2: one bus transaction (start, device
address in write mode, register address, value byte, stop).  The chip is a register
array in which the addressed register takes the byte; the transaction is logged. -/
def _writeRegister (d : Driver) (reg value : Nat) : Driver :=
  { d with regs := Function.update d.regs reg (value % 256),
           writes := d.writes ++ [(reg, value % 256)] }

/-- Modelled from the spec: `_readRegister` lives in `hardware/*/HW_*.h`.  Spec 4.2:
an addressed single-register read that returns the raw byte. -/
def _readRegister (d : Driver) (reg : Nat) : Nat :=
  d.regs reg % 256

/-- Modelled from the spec: `_burstRead` lives in `hardware/*/HW_*.h`.  Spec 4.2:
reads the 7 registers seconds..year, starting at register address 0, in one
transaction into the snapshot buffer. -/
def _burstRead (d : Driver) : Driver :=
  { d with _burstArray := fun i => d.regs i.val % 256 }

/-! ## Calendar engine -/

/-- Source `Time DS3231::getTime()`; returns the record and the driver with its refreshed
snapshot buffer. -/
def getTime (d : Driver) : Time × Driver :=
  let d1 := _burstRead d
  ({ sec := _decode (d1._burstArray 0),
     min := _decode (d1._burstArray 1),
     hour := _decodeH (d1._burstArray 2),
     dow := d1._burstArray 3,
     date := _decode (d1._burstArray 4),
     mon := _decode (d1._burstArray 5),
     year := (_decodeY (d1._burstArray 6) + d1.YEAR0) % 65536 }, d1)

/-- Source `void DS3231::setTime(uint8_t sec, uint8_t min, uint8_t hour)`. -/
def setTime (d : Driver) (sec min hour : Nat) : Driver :=
  if ((hour ≥ 0) ∧ (hour < 24)) ∧ ((min ≥ 0) ∧ (min < 60)) ∧ ((sec ≥ 0) ∧ (sec < 60)) then
    let d1 := _writeRegister d REG_HOUR (_encode hour)
    let d2 := _writeRegister d1 REG_MIN (_encode min)
    _writeRegister d2 REG_SEC (_encode sec)
  else d

/-- Source `void DS3231::setDate(uint8_t date, uint8_t mon, uint16_t year, uint16_t epochYear)`.
`YEAR0 = epochYear` and the 16-bit `year -= epochYear` precede the range test. -/
def setDate (d : Driver) (date mon year epochYear : Nat) : Driver :=
  let d0 := { d with YEAR0 := epochYear }
  let year := (year + 65536 - epochYear) % 65536
  if ((date > 0) ∧ (date ≤ 31)) ∧ ((mon > 0) ∧ (mon ≤ 12)) ∧ ((year ≥ 0) ∧ (year ≤ 99)) then
    let d1 := _writeRegister d0 REG_YEAR (_encode (year % 256))
    let d2 := _writeRegister d1 REG_MON (_encode mon)
    _writeRegister d2 REG_DATE (_encode date)
  else d0

/-- The loop `while (dow>7) dow -= 7;` of `setDOW()`; `none` when the fuel is used up
before the loop condition fails. -/
def dowLoop : Nat → Int → Option Int
  | 0, _ => none
  | fuel + 1, dow => if dow > 7 then dowLoop fuel (dow - 7) else some dow

/-- Source `void DS3231::setDOW()`.  `dow` is a C `int`.  The statement `dow = dow*1.25;`
multiplies in floating point and truncates on the store; for `0 ≤ dow ≤ 99` the
product is a multiple of 0.25 below 124, which is exact, so the stored value is
`dow * 5 / 4`.  `none` stands for a read outside `mArr` (when `_t.mon` is 0 or
above 12) or for running out of loop fuel. -/
def setDOW (d : Driver) : Option Driver :=
  let (_t, d1) := getTime d
  let dow : Int := ((_t.year % 100 : Nat) : Int)
  let dow : Int := Int.tdiv (dow * 5) 4
  let dow : Int := dow + _t.date
  if _t.mon = 0 then none else
  match mArr[_t.mon - 1]? with
  | none => none
  | some m =>
    let dow : Int := dow + m
    let dow : Int := if (_t.year % 4 = 0) ∧ (_t.mon < 3) then dow - 1 else dow
    match dowLoop (dow.toNat + 1) dow with
    | none => none
    | some dow => some (_writeRegister d1 REG_DOW (dow % 256).toNat)

/-- Source `void DS3231::setDOW(uint8_t dow)`, the explicit-value variant. -/
def setDOWTo (d : Driver) (dow : Nat) : Driver :=
  if (dow > 0) ∧ (dow < 8) then _writeRegister d REG_DOW dow else d

/-- The loop `while (dayno >= YEARSIZE(year)) { dayno -= YEARSIZE(year); year++; }`
of `makeDateTime`, `year` being a `uint16_t`.  Returns `(dayno, year)` at loop exit,
`none` when the fuel is used up first. -/
def yearLoop : Nat → Nat → Nat → Option (Nat × Nat)
  | 0, _, _ => none
  | fuel + 1, dayno, year =>
    if dayno ≥ YEARSIZE year then
      yearLoop fuel (dayno - YEARSIZE year) ((year + 1) % 65536)
    else some (dayno, year)

/-- The loop of `makeDateTime` marked `METHOD 1`:
`while (dayno >= calDay) { dayno -= calDay; t.mon++;
   calDay = (LEAPYEAR(year) && (t.mon == 1)) ? (calender[t.mon] + 1) : calender[t.mon]; }`
with `t.mon` a `uint8_t`.  Returns `(dayno, t.mon)` at loop exit; `none` when
`calender` is read outside its 12 entries or the fuel is used up. -/
def monthLoop (year : Nat) : Nat → Nat → Nat → Nat → Option (Nat × Nat)
  | 0, _, _, _ => none
  | fuel + 1, dayno, mon, calDay =>
    if dayno ≥ calDay then
      let mon1 := (mon + 1) % 256
      match calender[mon1]? with
      | none => none
      | some c =>
        monthLoop year fuel (dayno - calDay) mon1 (if LEAPYEAR year && mon1 == 1 then c + 1 else c)
    else some (dayno, mon)

/-- Source `Time DS3231::makeDateTime(unsigned long time)` for the Epoch Year `YEAR0`.
The year loop gets `dayno + 1` steps of fuel (every step takes at least 365 days
off `dayno`), the month loop 13 (every step advances the month, and month 12 is
already outside the table). -/
def makeDateTime (YEAR0 : Nat) (time : Nat) : Option Time :=
  let dayno := time / SECS_DAY
  let dayclock := time % SECS_DAY
  let sec := (dayclock % 60) % 256
  let min := ((dayclock % 3600) / 60) % 256
  let hour := (dayclock / 3600) % 256
  let dow := ((dayno + 3) % 7 + 1) % 256
  match yearLoop (dayno + 1) dayno YEAR0 with
  | none => none
  | some (dayno, year) =>
    match calender[0]? with
    | none => none
    | some calDay =>
      match monthLoop year 13 dayno 0 calDay with
      | none => none
      | some (dayno, mon) =>
        some { sec := sec, min := min, hour := hour, dow := dow, year := year,
               mon := (mon + 1) % 256, date := (dayno + 1) % 256 }

/-- The loop `while (t.mon) { t.mon--; days += calender[t.mon]; }` of `getUnixTime`;
`none` when `calender` is read outside its 12 entries. -/
def monthSumLoop : Nat → Nat → Option Nat
  | 0, days => some days
  | mon + 1, days =>
    match calender[mon]? with
    | none => none
    | some c => monthSumLoop mon (days + c)

/-- Source `unsigned long DS3231::getUnixTime(Time t)` for the Epoch Year `YEAR0`.
`int`, `unsigned int` and `long` are taken 32 bits wide (the ARM and PIC32 targets):
`t.year - YEAR0` is a signed difference, `/ 4` truncates towards zero, `days` is
reduced modulo `2^32`, and so is the returned value. -/
def getUnixTime (YEAR0 : Nat) (t : Time) : Option Nat :=
  let days : Nat := if (t.year % 4 = 0) ∧ (t.mon > 2) then 1 else 0
  let mon := (t.mon + 255) % 256
  match monthSumLoop mon days with
  | none => none
  | some days =>
    let dy : Int := (t.year : Int) - (YEAR0 : Int)
    let inc : Int := (dy * 365) + Int.tdiv dy 4 + ((t.date : Int) - 1)
    let days : Nat := (((days : Int) + inc) % (2 ^ 32 : Int)).toNat
    some (((((days * 24) + t.hour) * 60 + t.min) * 60 + t.sec) % 2 ^ 32)

/-! ## Alarm register model -/

/-- Source `void DS3231::setAlarm(ALARM_TYPES_t alarmType, uint8_t sec, uint8_t min,
uint8_t hour, uint8_t daydate)`. -/
def setAlarm (d : Driver) (alarmType sec min hour daydate : Nat) : Driver :=
  let sec := _encode sec
  let min := _encode min
  let hour := _encode hour
  let daydate := _encode daydate
  let sec := if alarmType &&& 0x01 ≠ 0 then (sec ||| (1 <<< A1M1)) % 256 else sec
  let min := if alarmType &&& 0x02 ≠ 0 then (min ||| (1 <<< A1M2)) % 256 else min
  let hour := if alarmType &&& 0x04 ≠ 0 then (hour ||| (1 <<< A1M3)) % 256 else hour
  let daydate := if alarmType &&& 0x10 ≠ 0 then (daydate ||| (1 <<< DYDT)) % 256 else daydate
  let daydate := if alarmType &&& 0x08 ≠ 0 then (daydate ||| (1 <<< A1M4)) % 256 else daydate
  if alarmType &&& 0x80 = 0 then
    let addr := ALM1_SECONDS
    let d1 := _writeRegister d addr sec
    let addr := (addr + 1) % 256
    let d2 := _writeRegister d1 addr min
    let addr := (addr + 1) % 256
    let d3 := _writeRegister d2 addr hour
    let addr := (addr + 1) % 256
    _writeRegister d3 addr daydate
  else
    let addr := ALM2_MINUTES
    let d2 := _writeRegister d addr min
    let addr := (addr + 1) % 256
    let d3 := _writeRegister d2 addr hour
    let addr := (addr + 1) % 256
    _writeRegister d3 addr daydate


/-! ## Control and status register model -/

/-- Control register bit positions `INTCN`, `A2IE`, `A1IE`. -/
def INTCN : Nat := 2
def A2IE : Nat := 1
def A1IE : Nat := 0

/-- Status register bit positions `A2F`, `A1F`. -/
def A2F : Nat := 1
def A1F : Nat := 0

/-- Macro `_BV(bit)` of avr-libc, `(1 << (bit))`, used once by `setOutput`. -/
def _BV (bit : Nat) : Nat := 1 <<< bit

/-- Enumeration `enum MODES_t` of `DS3231.h`. -/
inductive MODES_t where
  | SQWAVE
  | ALARM1
  | ALARM2
  | ALARMx
  deriving DecidableEq, Repr

/-- Source `uint8_t DS3231::checkAlarm(void)`; returns the result and the driver after
the write-back.  `_reg &= ~(1 << b)` on the byte `_reg` keeps the bits of `_reg` that
are set in `255 ^^^ (1 << b)`. -/
def checkAlarm (d : Driver) : Nat × Driver :=
  let _reg := _readRegister d REG_STATUS
  let _creg := (_readRegister d REG_CON) &&& _reg
  let _reg := if _reg &&& (1 <<< A1F) ≠ 0 then _reg &&& (255 ^^^ (1 <<< A1F)) else _reg
  let _reg := if _reg &&& (1 <<< A2F) ≠ 0 then _reg &&& (255 ^^^ (1 <<< A2F)) else _reg
  (_creg &&& 0x03, _writeRegister d REG_STATUS _reg)

/-- Source `void DS3231::setOutput(MODES_t mode)`. -/
def setOutput (d : Driver) (mode : MODES_t) : Driver :=
  let _reg := _readRegister d REG_CON
  let _reg :=
    if mode = MODES_t.SQWAVE then
      _reg &&& (255 ^^^ ((1 <<< INTCN) ||| (1 <<< A2IE) ||| (1 <<< A1IE)))
    else
      let _reg := (_reg ||| _BV INTCN) % 256
      if mode = MODES_t.ALARM1 then
        let _reg := (_reg ||| (1 <<< A1IE)) % 256
        _reg &&& (255 ^^^ (1 <<< A2IE))
      else if mode = MODES_t.ALARM2 then
        let _reg := _reg &&& (255 ^^^ (1 <<< A1IE))
        (_reg ||| (1 <<< A2IE)) % 256
      else
        let _reg := (_reg ||| (1 <<< A1IE)) % 256
        (_reg ||| (1 <<< A2IE)) % 256
  _writeRegister d REG_CON _reg

/-! ## Bus transport -/

/-- Pin levels and directions of the platform GPIO layer. -/
def LOW : Nat := 0
def HIGH : Nat := 1
def INPUT : Nat := 0
def OUTPUT : Nat := 1
def LSBFIRST : Nat := 0
def MSBFIRST : Nat := 1

/-- One call into the GPIO and timing collaborator; `digitalRead` carries the level
it returned. -/
inductive PinOp where
  | pinMode (pin : Nat) (mode : Nat)
  | digitalWrite (pin : Nat) (level : Nat)
  | digitalRead (pin : Nat) (level : Nat)
  | delayMicroseconds (us : Nat)
  deriving DecidableEq, Repr

/-- The transport side of the driver object: its two pin numbers, the calls made to
the GPIO layer so far (oldest first), and the outside world as seen through the data
line: `line k` is the level the line shows at the sample numbered `k`, `samples` counts
the samples taken so far. -/
structure Wire where
  _sda_pin : Nat
  _scl_pin : Nat
  trace : List PinOp
  line : Nat → Bool
  samples : Nat

/-- Modelled from the spec: `pinMode` of the GPIO collaborator (spec 6,
`setDirection(pin, in|out)`), not part of the sources at hand.  The call is recorded. -/
def pinMode (w : Wire) (pin mode : Nat) : Wire :=
  { w with trace := w.trace ++ [PinOp.pinMode pin mode] }

/-- Modelled from the spec: `digitalWrite` of the GPIO collaborator (spec 6,
`writeLevel(pin, high|low)`).  The call is recorded. -/
def digitalWrite (w : Wire) (pin level : Nat) : Wire :=
  { w with trace := w.trace ++ [PinOp.digitalWrite pin level] }

/-- Modelled from the spec: `digitalRead` of the GPIO collaborator (spec 6,
`readLevel(pin) -> high|low`).  Returns `HIGH` or `LOW` as the line shows at this
sample, records the call and counts the sample. -/
def digitalRead (w : Wire) (pin : Nat) : Nat × Wire :=
  let level := if w.line w.samples then HIGH else LOW
  (level, { w with trace := w.trace ++ [PinOp.digitalRead pin level],
                   samples := w.samples + 1 })

/-- Modelled from the spec: `delayMicroseconds` of the timing collaborator (spec 6).
The call is recorded. -/
def delayMicroseconds (w : Wire) (us : Nat) : Wire :=
  { w with trace := w.trace ++ [PinOp.delayMicroseconds us] }

/-- Modelled from the spec: `shiftOut` of the platform library, not part of the
sources at hand.  Spec 4.1: shifts out 8 bits, in the given bit order, with one clock
pulse per bit: the bit is put on the data pin, then the clock pin goes high and low. -/
def shiftOut (w : Wire) (dataPin clockPin bitOrder value : Nat) : Wire :=
  (List.range 8).foldl (fun w i =>
    let bit := if bitOrder = LSBFIRST then (value >>> i) % 2 else (value >>> (7 - i)) % 2
    let w1 := digitalWrite w dataPin bit
    let w2 := digitalWrite w1 clockPin HIGH
    digitalWrite w2 clockPin LOW) w

/-- Source `void DS3231::_sendStart(byte addr)`. -/
def _sendStart (w : Wire) (addr : Nat) : Wire :=
  let w1 := pinMode w w._sda_pin OUTPUT
  let w2 := digitalWrite w1 w1._sda_pin HIGH
  let w3 := digitalWrite w2 w2._scl_pin HIGH
  let w4 := digitalWrite w3 w3._sda_pin LOW
  let w5 := digitalWrite w4 w4._scl_pin LOW
  shiftOut w5 w5._sda_pin w5._scl_pin MSBFIRST addr

/-- The loop `for (int i = 0; i < 8; ++i) { ... }` of `_readByte`, entered with the
loop counter `i` and the byte assembled so far; `none` when the fuel is used up before
the loop condition fails. -/
def _readByteLoop : Nat → Nat → Nat → Wire → Option (Nat × Wire)
  | 0, _, _, _ => none
  | fuel + 1, i, value, w =>
    if i < 8 then
      let w1 := digitalWrite w w._scl_pin HIGH
      let (currentBit, w2) := digitalRead w1 w1._sda_pin
      let value := (value ||| (currentBit <<< (7 - i))) % 256
      let w3 := delayMicroseconds w2 1
      let w4 := digitalWrite w3 w3._scl_pin LOW
      _readByteLoop fuel (i + 1) value w4
    else some (value, w)

/-- Source `uint8_t DS3231::_readByte()`; the loop gets 9 steps of fuel, one more than
the 8 values of the counter below 8. -/
def _readByte (w : Wire) : Option (Nat × Wire) :=
  let w1 := pinMode w w._sda_pin INPUT
  _readByteLoop 9 0 0 w1

/-- Level a pin was last driven to in a trace of GPIO calls, if it was driven at all. -/
def pinLevel (pin : Nat) : List PinOp → Option Nat
  | [] => none
  | op :: rest =>
    match pinLevel pin rest with
    | some l => some l
    | none =>
      match op with
      | PinOp.digitalWrite p l => if p = pin then some l else none
      | _ => none

/-- A wire with the data line on pin 20 and the clock on pin 21, nothing done yet, in
front of a data line that reads low at every sample. -/
def Wire.idle : Wire :=
  { _sda_pin := 20, _scl_pin := 21, trace := [], line := fun _ => false, samples := 0 }

/-- The indices at which the loop of `makeDateTime` marked `METHOD 1` reads the table
`calender`, in the order of the reads, for the same run as `monthLoop`.  An index
outside the 12 entries is listed like any other; the value read there is taken as 0. -/
def monthLoopReads (year : Nat) : Nat → Nat → Nat → Nat → List Nat
  | 0, _, _, _ => []
  | fuel + 1, dayno, mon, calDay =>
    if dayno ≥ calDay then
      let mon1 := (mon + 1) % 256
      let c := calender.getD mon1 0
      mon1 :: monthLoopReads year fuel (dayno - calDay) mon1
        (if LEAPYEAR year && mon1 == 1 then c + 1 else c)
    else []

/-! ## Reference calendar

The Gregorian calendar as the specification words it, written independently of the
loops of the driver; the claims on `makeDateTime`, `getUnixTime` and `setDOW()` compare the
code with these definitions. -/

/-- Full Gregorian leap-year rule: divisible by 4 and (not by 100 or by 400). -/
def gregorianLeap (y : Nat) : Bool :=
  decide (y % 4 = 0 ∧ (y % 100 ≠ 0 ∨ y % 400 = 0))

/-- Length of month `m` (1..12) of year `y`: the table 31, 28/29, 31, 30, 31, 30, 31,
31, 30, 31, 30, 31; 0 for a month number outside 1..12. -/
def gregorianMonthLength (y m : Nat) : Nat :=
  if m = 0 then 0
  else [31, if gregorianLeap y then 29 else 28, 31, 30, 31, 30, 31, 31, 30, 31, 30, 31].getD
    (m - 1) 0

/-- Length of year `y` in days. -/
def gregorianYearLength (y : Nat) : Nat :=
  if gregorianLeap y then 366 else 365

/-- Days in the years `E, E+1, .., y-1`. -/
def daysBeforeYear (E y : Nat) : Nat :=
  ((List.range' E (y - E)).map gregorianYearLength).sum

/-- Days in the months `1, .., m-1` of year `y`. -/
def daysBeforeMonth (y m : Nat) : Nat :=
  ((List.range' 1 (m - 1)).map (gregorianMonthLength y)).sum

/-- Whole days from 1 January of year `E` to the date `(y, m, d)`. -/
def daysFromEpoch (E y m d : Nat) : Nat :=
  daysBeforeYear E y + daysBeforeMonth y m + (d - 1)

/-- A date of the Gregorian calendar. -/
def validGregorianDate (y m d : Nat) : Prop :=
  1 ≤ m ∧ m ≤ 12 ∧ 1 ≤ d ∧ d ≤ gregorianMonthLength y m

instance (y m d : Nat) : Decidable (validGregorianDate y m d) := by
  unfold validGregorianDate
  infer_instance

/-- Weekday of `(y, m, d)` on the scale Monday = 1 .. Sunday = 7, counted from
Thursday 1 January 1970. -/
def gregorianWeekday (y m d : Nat) : Nat :=
  (daysFromEpoch 1970 y m d + 3) % 7 + 1

/-- Checker for one run of the month loop of `makeDateTime` from January: the loop
ends on a month index below 12 with a day offset inside that month, and the days of
the months passed plus the offset give back the day of the year. -/
def monthLoopOk (y dayno : Nat) : Bool :=
  match monthLoop y 13 dayno 0 31 with
  | none => false
  | some (r, m) =>
    decide (m < 12 ∧ r < gregorianMonthLength y (m + 1) ∧ daysBeforeMonth y (m + 1) + r = dayno)

/-! ## Helper lemmas: register writes and mask bits -/

theorem encode_lt (v : Nat) : _encode v < 256 := by
  unfold _encode
  exact Nat.mod_lt _ (by decide)

theorem and_two_pow_ne_zero (a k : Nat) : a &&& 2 ^ k ≠ 0 ↔ a / 2 ^ k % 2 = 1 := by
  rw [Nat.and_two_pow, Nat.testBit_to_div_mod]
  by_cases h : a / 2 ^ k % 2 = 1
  · simp [h]
  · simp [h]

/-- Or-ing a mask bit into a byte is or-ing the selector bit shifted to its place. -/
theorem mask_byte (a k p b : Nat) (hb : b < 256) (hp : p < 8) :
    (if a &&& 2 ^ k ≠ 0 then (b ||| (1 <<< p)) % 256 else b) = b ||| ((a / 2 ^ k % 2) <<< p) := by
  have hlt : 1 <<< p < 2 ^ 8 := by
    rw [Nat.shiftLeft_eq, Nat.one_mul]
    exact Nat.pow_lt_pow_right (by decide) hp
  by_cases h : a / 2 ^ k % 2 = 1
  · rw [if_pos ((and_two_pow_ne_zero a k).2 h), h]
    exact Nat.mod_eq_of_lt (Nat.or_lt_two_pow hb hlt)
  · rw [if_neg (fun hc => h ((and_two_pow_ne_zero a k).1 hc))]
    have h0 : a / 2 ^ k % 2 = 0 := by omega
    simp [h0]

theorem mask_lt (b x p : Nat) (hb : b < 256) (hp : p < 8) : b ||| ((x % 2) <<< p) < 256 := by
  have h1 : (x % 2) <<< p < 2 ^ 8 := by
    rw [Nat.shiftLeft_eq]
    have h2 : x % 2 < 2 := Nat.mod_lt _ (by decide)
    have h3 : 2 ^ p * 2 ≤ 2 ^ 8 := by
      rw [← Nat.pow_succ]
      exact Nat.pow_le_pow_right (by decide) hp
    have h4 : x % 2 * 2 ^ p < 2 * 2 ^ p := Nat.mul_lt_mul_of_pos_right h2 (Nat.pow_pos (by decide))
    omega
  exact Nat.or_lt_two_pow hb h1

theorem writeRegister_regs (d : Driver) (reg value r : Nat) :
    (_writeRegister d reg value).regs r = if r = reg then value % 256 else d.regs r := by
  simp [_writeRegister, Function.update_apply]

theorem writeRegister_writes (d : Driver) (reg value : Nat) :
    (_writeRegister d reg value).writes = d.writes ++ [(reg, value % 256)] := rfl

theorem writeRegister_YEAR0 (d : Driver) (reg value : Nat) :
    (_writeRegister d reg value).YEAR0 = d.YEAR0 := rfl


/-- The masked decoder inverts `_encode` below 80, by exhaustion. -/
theorem decode_encode_lt_80 : ∀ v, v < 80 → _decode (_encode v) = v := by
  decide

/-- The year decoder inverts `_encode` below 100, by exhaustion. -/
theorem decodeY_encode_lt_100 : ∀ v, v < 100 → _decodeY (_encode v) = v := by
  decide

/-- The 24 hour encodings, by exhaustion. -/
theorem decodeH_encode_lt_24 : ∀ h, h < 24 → _decodeH (_encode h) = h := by
  decide

/-- An accepted `setTime` is its three register writes, hours first. -/
theorem setTime_of_valid (d : Driver) (sec min hour : Nat)
    (hs : sec < 60) (hm : min < 60) (hh : hour < 24) :
    setTime d sec min hour =
      _writeRegister (_writeRegister (_writeRegister d 0x02 (_encode hour)) 0x01 (_encode min))
        0x00 (_encode sec) := by
  unfold setTime
  rw [if_pos (by omega)]
  rfl

/-- An accepted `setDate` is the Epoch Year update followed by its three register
writes, year first. -/
theorem setDate_of_valid (d : Driver) (date mon year epochYear : Nat)
    (hv : (1 ≤ date ∧ date ≤ 31) ∧ (1 ≤ mon ∧ mon ≤ 12) ∧
      (epochYear ≤ year ∧ year ≤ epochYear + 99)) :
    setDate d date mon year epochYear =
      _writeRegister (_writeRegister (_writeRegister { d with YEAR0 := epochYear } 0x06
        (_encode (year - epochYear))) 0x05 (_encode mon)) 0x04 (_encode date) := by
  have e1 : (year + 65536 - epochYear) % 65536 = year - epochYear := by omega
  have e2 : (year - epochYear) % 256 = year - epochYear := by omega
  unfold setDate
  simp only [e1, e2]
  rw [if_pos (by omega)]
  rfl

/-- The record `getTime` returns, field by field, in terms of the register file. -/
theorem getTime_fields (d : Driver) :
    (getTime d).1 =
      { sec := _decode (d.regs 0 % 256), min := _decode (d.regs 1 % 256),
        hour := _decodeH (d.regs 2 % 256), dow := d.regs 3 % 256,
        date := _decode (d.regs 4 % 256), mon := _decode (d.regs 5 % 256),
        year := (_decodeY (d.regs 6 % 256) + d.YEAR0) % 65536 } := rfl

/-- The flag-clearing steps of `checkAlarm` on a status byte, by exhaustion. -/
theorem clear_alarm_flags : ∀ s, s < 256 →
    (if (if s &&& (1 <<< A1F) ≠ 0 then s &&& (255 ^^^ (1 <<< A1F)) else s) &&& (1 <<< A2F) ≠ 0
      then (if s &&& (1 <<< A1F) ≠ 0 then s &&& (255 ^^^ (1 <<< A1F)) else s) &&&
        (255 ^^^ (1 <<< A2F))
      else (if s &&& (1 <<< A1F) ≠ 0 then s &&& (255 ^^^ (1 <<< A1F)) else s)) = s &&& 0xFC ∧
    (s &&& 0xFC) % 4 = 0 ∧ (s &&& 0xFC) / 4 = s / 4 ∧ s &&& 0xFC < 256 := by
  decide

/-- The byte `setOutput` writes: the five high bits of the control register are kept
and the three low bits are set by the mode. -/
theorem setOutput_value (d : Driver) (c : Nat) (m : MODES_t)
    (hc : d.regs 0x0E = c) (hc8 : c < 256) :
    ∃ v, setOutput d m = _writeRegister d REG_CON v ∧ v < 256 ∧ v / 8 = c / 8 ∧
      (v / 4 % 2, v / 2 % 2, v % 2) =
        (match m with
         | MODES_t.SQWAVE => (0, 0, 0)
         | MODES_t.ALARM1 => (1, 0, 1)
         | MODES_t.ALARM2 => (1, 1, 0)
         | MODES_t.ALARMx => (1, 1, 1)) := by
  have hrc : _readRegister d REG_CON = c := by
    show d.regs 0x0E % 256 = c
    rw [hc, Nat.mod_eq_of_lt hc8]
  cases m
  · refine ⟨_, by unfold setOutput; simp only [hrc, if_true]; rfl, ?_⟩
    clear hrc hc
    revert c
    decide
  · refine ⟨_, by unfold setOutput; simp only [hrc, reduceCtorEq, if_true, if_false]; rfl, ?_⟩
    clear hrc hc
    revert c
    decide
  · refine ⟨_, by unfold setOutput; simp only [hrc, reduceCtorEq, if_true, if_false]; rfl, ?_⟩
    clear hrc hc
    revert c
    decide
  · refine ⟨_, by unfold setOutput; simp only [hrc, reduceCtorEq, if_true, if_false]; rfl, ?_⟩
    clear hrc hc
    revert c
    decide
/-! ## Helper lemmas: the bus transport -/

/-- Eight samples or-ed into a byte, first sample at bit 7, by exhaustion. -/
theorem assemble_bits : ∀ b0 b1 b2 b3 b4 b5 b6 b7 : Bool,
    ((((((((0 ||| (if b0 then HIGH else LOW) <<< (7 - 0)) % 256
      ||| (if b1 then HIGH else LOW) <<< (7 - 1)) % 256
      ||| (if b2 then HIGH else LOW) <<< (7 - 2)) % 256
      ||| (if b3 then HIGH else LOW) <<< (7 - 3)) % 256
      ||| (if b4 then HIGH else LOW) <<< (7 - 4)) % 256
      ||| (if b5 then HIGH else LOW) <<< (7 - 5)) % 256
      ||| (if b6 then HIGH else LOW) <<< (7 - 6)) % 256
      ||| (if b7 then HIGH else LOW) <<< (7 - 7)) % 256
    = b0.toNat * 2 ^ 7 + b1.toNat * 2 ^ 6 + b2.toNat * 2 ^ 5 + b3.toNat * 2 ^ 4 +
      b4.toNat * 2 ^ 3 + b5.toNat * 2 ^ 2 + b6.toNat * 2 ^ 1 + b7.toNat * 2 ^ 0 := by
  decide

/-- One pass through the body of the loop of `_readByte`. -/
theorem readByteLoop_step (fuel i value sda scl : Nat) (tr : List PinOp) (line : Nat → Bool)
    (k : Nat) (hi : i < 8) :
    _readByteLoop (fuel + 1) i value
        { _sda_pin := sda, _scl_pin := scl, trace := tr, line := line, samples := k } =
      _readByteLoop fuel (i + 1)
        ((value ||| ((if line k then HIGH else LOW) <<< (7 - i))) % 256)
        { _sda_pin := sda, _scl_pin := scl,
          trace := tr ++ [PinOp.digitalWrite scl HIGH,
            PinOp.digitalRead sda (if line k then HIGH else LOW),
            PinOp.delayMicroseconds 1, PinOp.digitalWrite scl LOW],
          line := line, samples := k + 1 } := by
  rw [_readByteLoop, if_pos hi]
  simp [digitalWrite, digitalRead, delayMicroseconds]

/-- The level a pin was last driven to is decided by the later part of a trace when
that part drives the pin. -/
theorem pinLevel_append (pin : Nat) (l1 l2 : List PinOp) (x : Nat)
    (h : pinLevel pin l2 = some x) : pinLevel pin (l1 ++ l2) = some x := by
  induction l1 with
  | nil => simpa using h
  | cons op rest ih =>
    simp [pinLevel, ih]

/-! ## Helper lemmas: the calendar loops -/

theorem LEAPYEAR_eq (y : Nat) : LEAPYEAR y = gregorianLeap y := by
  unfold LEAPYEAR gregorianLeap
  by_cases h4 : y % 4 = 0 <;> by_cases h100 : y % 100 = 0 <;> by_cases h400 : y % 400 = 0 <;>
    simp [h4, h100, h400]

theorem YEARSIZE_eq (y : Nat) : YEARSIZE y = gregorianYearLength y := by
  unfold YEARSIZE gregorianYearLength
  rw [LEAPYEAR_eq]

theorem YEARSIZE_ge (y : Nat) : 365 ≤ YEARSIZE y ∧ YEARSIZE y ≤ 366 := by
  unfold YEARSIZE
  split <;> omega

theorem daysBeforeYear_self (y : Nat) : daysBeforeYear y y = 0 := by
  simp [daysBeforeYear]

theorem daysBeforeYear_step (E y : Nat) (h : E < y) :
    daysBeforeYear E y = YEARSIZE E + daysBeforeYear (E + 1) y := by
  unfold daysBeforeYear
  have e : y - E = (y - (E + 1)) + 1 := by omega
  rw [e, List.range'_succ, List.map_cons, List.sum_cons, YEARSIZE_eq]

/-- The year loop of `makeDateTime` ends, within `dayno + 1` steps, on the year that
contains day `dayno` counted from 1 January of `year`, provided the 16-bit year
counter does not wrap. -/
theorem yearLoop_spec : ∀ (fuel dayno year : Nat), dayno < fuel → year + dayno / 365 < 65536 →
    ∃ r y, yearLoop fuel dayno year = some (r, y) ∧ r < YEARSIZE y ∧ year ≤ y ∧
      y ≤ year + dayno / 365 ∧ daysBeforeYear year y + r = dayno := by
  intro fuel
  induction fuel with
  | zero => intro dayno year h; omega
  | succ n ih =>
    intro dayno year hf hw
    have hy := YEARSIZE_ge year
    by_cases hc : dayno ≥ YEARSIZE year
    · have hdiv : (dayno - YEARSIZE year) / 365 + 1 ≤ dayno / 365 := by omega
      have hmod : (year + 1) % 65536 = year + 1 := Nat.mod_eq_of_lt (by omega)
      obtain ⟨r, y, h1, h2, h3, h4, h5⟩ :=
        ih (dayno - YEARSIZE year) (year + 1) (by omega) (by omega)
      refine ⟨r, y, ?_, h2, by omega, by omega, ?_⟩
      · rw [yearLoop, if_pos hc, hmod]
        exact h1
      · rw [daysBeforeYear_step year y (by omega)]
        omega
    · refine ⟨dayno, year, ?_, by omega, le_refl _, by omega, ?_⟩
      · rw [yearLoop, if_neg hc]
      · rw [daysBeforeYear_self]
        omega

theorem monthLoop_congr (y1 y2 : Nat) (h : LEAPYEAR y1 = LEAPYEAR y2) :
    ∀ fuel dayno mon calDay, monthLoop y1 fuel dayno mon calDay = monthLoop y2 fuel dayno mon calDay := by
  intro fuel
  induction fuel with
  | zero => intro dayno mon calDay; rfl
  | succ n ih =>
    intro dayno mon calDay
    simp only [monthLoop, h]
    split
    · split
      · rfl
      · exact ih _ _ _
    · rfl

theorem monthLoopOk_leap : ∀ dayno, dayno < 366 → monthLoopOk 4 dayno = true := by
  decide

theorem monthLoopOk_common : ∀ dayno, dayno < 365 → monthLoopOk 1 dayno = true := by
  decide

theorem gregorianMonthLength_congr (y1 y2 : Nat) (h : gregorianLeap y1 = gregorianLeap y2) :
    gregorianMonthLength y1 = gregorianMonthLength y2 := by
  funext m
  simp only [gregorianMonthLength, h]

theorem daysBeforeMonth_congr (y1 y2 : Nat) (h : gregorianLeap y1 = gregorianLeap y2) (m : Nat) :
    daysBeforeMonth y1 m = daysBeforeMonth y2 m := by
  simp only [daysBeforeMonth, gregorianMonthLength_congr y1 y2 h]

theorem monthLoopOk_congr (y1 y2 : Nat) (h : gregorianLeap y1 = gregorianLeap y2) (dayno : Nat) :
    monthLoopOk y1 dayno = monthLoopOk y2 dayno := by
  have hl : LEAPYEAR y1 = LEAPYEAR y2 := by rw [LEAPYEAR_eq, LEAPYEAR_eq, h]
  simp only [monthLoopOk, monthLoop_congr y1 y2 hl, gregorianMonthLength_congr y1 y2 h,
    daysBeforeMonth_congr y1 y2 h]

/-- The month loop of `makeDateTime`, started in January on a day of the year below
the length of the year, ends inside the 12-entry table on the month containing that day. -/
theorem monthLoop_spec (year dayno : Nat) (h : dayno < YEARSIZE year) :
    ∃ r m, monthLoop year 13 dayno 0 31 = some (r, m) ∧ m < 12 ∧
      r < gregorianMonthLength year (m + 1) ∧ daysBeforeMonth year (m + 1) + r = dayno := by
  have hok : monthLoopOk year dayno = true := by
    cases hb : gregorianLeap year with
    | true =>
      rw [monthLoopOk_congr year 4 (by rw [hb]; decide)]
      apply monthLoopOk_leap
      simpa [YEARSIZE, LEAPYEAR_eq, hb] using h
    | false =>
      rw [monthLoopOk_congr year 1 (by rw [hb]; decide)]
      apply monthLoopOk_common
      simpa [YEARSIZE, LEAPYEAR_eq, hb] using h
  unfold monthLoopOk at hok
  split at hok
  · exact absurd hok (by decide)
  · rename_i r m heq
    have := of_decide_eq_true hok
    exact ⟨r, m, heq, this⟩

/-- What `makeDateTime` returns: it always returns, and the fields of the result are
the Gregorian date and the time of day of second `time` counted from 1 January of the
Epoch Year, as long as the 16-bit year counter does not wrap. -/
theorem makeDateTime_spec (YEAR0 time : Nat) (hw : YEAR0 + time / 86400 / 365 < 65536) :
    ∃ t, makeDateTime YEAR0 time = some t ∧
      YEAR0 ≤ t.year ∧ t.year ≤ YEAR0 + time / 86400 / 365 ∧
      1 ≤ t.mon ∧ t.mon ≤ 12 ∧ 1 ≤ t.date ∧ t.date ≤ gregorianMonthLength t.year t.mon ∧
      daysFromEpoch YEAR0 t.year t.mon t.date = time / 86400 ∧
      t.hour = time % 86400 / 3600 ∧ t.min = time % 86400 % 3600 / 60 ∧
      t.sec = time % 86400 % 60 ∧ t.dow = (time / 86400 + 3) % 7 + 1 := by
  obtain ⟨r, y, h1, h2, h3, h4, h5⟩ :=
    yearLoop_spec (time / 86400 + 1) (time / 86400) YEAR0 (by omega) hw
  obtain ⟨r2, m, k1, k2, k3, k4⟩ := monthLoop_spec y r h2
  have hlen : gregorianMonthLength y (m + 1) ≤ 31 := by
    unfold gregorianMonthLength
    interval_cases m <;> simp only [Nat.reduceAdd, Nat.reduceSub, List.getD_cons_succ,
      List.getD_cons_zero, Nat.succ_ne_zero, if_false] <;> first | omega | (split <;> omega)
  have hmk : makeDateTime YEAR0 time = some
      { sec := (time % 86400 % 60) % 256, min := (time % 86400 % 3600 / 60) % 256,
        hour := (time % 86400 / 3600) % 256, dow := ((time / 86400 + 3) % 7 + 1) % 256,
        year := y, mon := (m + 1) % 256, date := (r2 + 1) % 256 } := by
    simp only [makeDateTime, SECS_DAY, h1, calender, List.getElem?_cons_zero, k1]
  have e1 : (m + 1) % 256 = m + 1 := Nat.mod_eq_of_lt (by omega)
  have e2 : (r2 + 1) % 256 = r2 + 1 := Nat.mod_eq_of_lt (by omega)
  rw [e1, e2] at hmk
  refine ⟨_, hmk, h3, h4, ?_⟩
  simp only [daysFromEpoch]
  refine ⟨by omega, by omega, by omega, by omega, by omega, ?_, ?_, ?_, ?_⟩ <;> omega

theorem monthSumLoop_eq : ∀ (mon days : Nat), mon < 12 →
    monthSumLoop mon days = some (days + (calender.take mon).sum) := by
  intro mon days h
  interval_cases mon <;> simp [monthSumLoop, calender]

/-- The day count of `getUnixTime` for a record whose year is not before the Epoch
Year, whose month is in 1..12 and whose date is at least 1. -/
theorem getUnixTime_eq (YEAR0 : Nat) (t : Time) (hy : YEAR0 ≤ t.year)
    (hm1 : 1 ≤ t.mon) (hm2 : t.mon ≤ 12) (hd : 1 ≤ t.date)
    (hs : (if t.year % 4 = 0 ∧ t.mon > 2 then 1 else 0) + (calender.take (t.mon - 1)).sum +
      (t.year - YEAR0) * 365 + (t.year - YEAR0) / 4 + (t.date - 1) < 2 ^ 32) :
    getUnixTime YEAR0 t = some ((((((if t.year % 4 = 0 ∧ t.mon > 2 then 1 else 0) +
      (calender.take (t.mon - 1)).sum + (t.year - YEAR0) * 365 + (t.year - YEAR0) / 4 +
      (t.date - 1)) * 24 + t.hour) * 60 + t.min) * 60 + t.sec) % 2 ^ 32) := by
  have hmon : (t.mon + 255) % 256 = t.mon - 1 := by omega
  have hdy : (t.year : Int) - (YEAR0 : Int) = ((t.year - YEAR0 : Nat) : Int) := by omega
  unfold getUnixTime
  simp only [hmon, monthSumLoop_eq (t.mon - 1) _ (by omega), hdy]
  generalize (if t.year % 4 = 0 ∧ t.mon > 2 then 1 else 0) + (calender.take (t.mon - 1)).sum
    = a at hs ⊢
  generalize t.year - YEAR0 = n at hs ⊢
  have e : ((((a : Int) + ((n : Int) * 365 + ((n / 4 : Nat) : Int) + ((t.date : Int) - 1))) %
      (2 ^ 32 : Int)).toNat) = a + n * 365 + n / 4 + (t.date - 1) := by
    omega
  have e4 : Int.tdiv (n : Int) 4 = ((n / 4 : Nat) : Int) := (Int.ofNat_tdiv n 4).symm
  rw [e4, e]

theorem gregorianLeap_century (y : Nat) (h1 : 1901 ≤ y) (h2 : y ≤ 2099) :
    gregorianLeap y = decide (y % 4 = 0) := by
  unfold gregorianLeap
  by_cases h : y % 4 = 0
  · have : y % 100 ≠ 0 ∨ y % 400 = 0 := by omega
    simp [h, this]
  · simp [h]

theorem daysBeforeMonth_eq (y m : Nat) (hm : m < 12) :
    daysBeforeMonth y (m + 1) =
      (calender.take m).sum + (if gregorianLeap y = true ∧ m + 1 > 2 then 1 else 0) := by
  interval_cases m <;>
    simp [daysBeforeMonth, gregorianMonthLength, calender, List.range'] <;>
    split <;> rfl

theorem daysBeforeYear_succ (E y : Nat) (h : E ≤ y) :
    daysBeforeYear E (y + 1) = daysBeforeYear E y + gregorianYearLength y := by
  unfold daysBeforeYear
  have e : y + 1 - E = (y - E) + 1 := by omega
  have e2 : E + (y - E) = y := by omega
  rw [e, List.range'_concat, List.map_append, List.sum_append]
  simp [e2]

/-- Days from 1 January 1970 to 1 January of a year up to 2100: 365 per year plus one
per leap year 1972, 1976, .. passed. -/
theorem daysBeforeYear_1970_closed : ∀ n, n ≤ 130 →
    daysBeforeYear 1970 (1970 + n) = n * 365 + (n + 1) / 4 := by
  intro n
  induction n with
  | zero => intro _; simp [daysBeforeYear]
  | succ k ih =>
    intro hk
    have hl := gregorianLeap_century (1970 + k) (by omega) (by omega)
    rw [show 1970 + (k + 1) = (1970 + k) + 1 from rfl, daysBeforeYear_succ 1970 _ (by omega),
      ih (by omega), gregorianYearLength, hl]
    by_cases h4 : (1970 + k) % 4 = 0
    · simp only [h4, decide_True, if_true]
      omega
    · simp only [h4, decide_False, Bool.false_eq_true, if_false]
      omega

theorem daysBeforeYear_1970 (n : Nat) (h : n < 130) (h4 : (1970 + n) % 4 ≠ 1) :
    daysBeforeYear 1970 (1970 + n) = n * 365 + n / 4 := by
  rw [daysBeforeYear_1970_closed n (by omega)]
  omega

/-- Round trip through `makeDateTime` and `getUnixTime` under the Epoch Year 1970, on
the years where the leap-day count `(year - 1970) / 4` of `getUnixTime` is right. -/
theorem roundtrip_1970 (s : Nat) (hs : s < 2 ^ 32) :
    ∃ t, makeDateTime 1970 s = some t ∧
      (t.year ≤ 2099 → t.year % 4 ≠ 1 → getUnixTime 1970 t = some s) := by
  have hw : 1970 + s / 86400 / 365 < 65536 := by omega
  obtain ⟨t, h0, h1, h2, h3, h4, h5, h6, h7, h8, h9, h10, -⟩ :=
    makeDateTime_spec 1970 s hw
  refine ⟨t, h0, ?_⟩
  intro hy hq
  have hleap := gregorianLeap_century t.year (by omega) hy
  have hbm := daysBeforeMonth_eq t.year (t.mon - 1) (by omega)
  have hmm : t.mon - 1 + 1 = t.mon := by omega
  rw [hmm, hleap] at hbm
  have hby := daysBeforeYear_1970 (t.year - 1970) (by omega) (by omega)
  have hyy : 1970 + (t.year - 1970) = t.year := by omega
  rw [hyy] at hby
  simp only [daysFromEpoch, hbm, hby, decide_eq_true_eq] at h7
  have hdays : (if t.year % 4 = 0 ∧ t.mon > 2 then 1 else 0) + (calender.take (t.mon - 1)).sum +
      (t.year - 1970) * 365 + (t.year - 1970) / 4 + (t.date - 1) = s / 86400 := by
    rw [← h7]
    omega
  have hlt : (if t.year % 4 = 0 ∧ t.mon > 2 then 1 else 0) + (calender.take (t.mon - 1)).sum +
      (t.year - 1970) * 365 + (t.year - 1970) / 4 + (t.date - 1) < 2 ^ 32 := by
    rw [hdays]; omega
  rw [getUnixTime_eq 1970 t h1 h3 h4 h5 hlt, hdays, h8, h9, h10]
  have e : ((((s / 86400) * 24 + s % 86400 / 3600) * 60 + s % 86400 % 3600 / 60) * 60 +
      s % 86400 % 60) % 2 ^ 32 = s := by
    omega
  rw [e]

/-- The year loop of `makeDateTime` ends within `dayno + 1` steps for every starting
year, also when the 16-bit year counter wraps, on a day offset below the length of the
year it stops at. -/
theorem yearLoop_total : ∀ (fuel dayno year : Nat), dayno < fuel →
    ∃ r y, yearLoop fuel dayno year = some (r, y) ∧ r < YEARSIZE y := by
  intro fuel
  induction fuel with
  | zero => intro dayno year h; omega
  | succ n ih =>
    intro dayno year hf
    have hy := YEARSIZE_ge year
    by_cases hc : dayno ≥ YEARSIZE year
    · obtain ⟨r, y, h1, h2⟩ := ih (dayno - YEARSIZE year) ((year + 1) % 65536) (by omega)
      exact ⟨r, y, by rw [yearLoop, if_pos hc]; exact h1, h2⟩
    · exact ⟨dayno, year, by rw [yearLoop, if_neg hc], by omega⟩

/-- For every Epoch Year and every time value `makeDateTime` returns, and the clock
fields and the weekday of the result are those of the remainder seconds and of the day
number. -/
theorem makeDateTime_clock (YEAR0 time : Nat) :
    ∃ t, makeDateTime YEAR0 time = some t ∧
      t.hour = time % 86400 / 3600 ∧ t.min = time % 86400 % 3600 / 60 ∧
      t.sec = time % 86400 % 60 ∧ t.dow = (time / 86400 + 3) % 7 + 1 := by
  obtain ⟨r, y, h1, h2⟩ := yearLoop_total (time / 86400 + 1) (time / 86400) YEAR0 (by omega)
  obtain ⟨r2, m, k1, -, -, -⟩ := monthLoop_spec y r h2
  have hmk : makeDateTime YEAR0 time = some
      { sec := (time % 86400 % 60) % 256, min := (time % 86400 % 3600 / 60) % 256,
        hour := (time % 86400 / 3600) % 256, dow := ((time / 86400 + 3) % 7 + 1) % 256,
        year := y, mon := (m + 1) % 256, date := (r2 + 1) % 256 } := by
    simp only [makeDateTime, SECS_DAY, h1, calender, List.getElem?_cons_zero, k1]
  refine ⟨_, hmk, ?_, ?_, ?_, ?_⟩ <;> simp only <;> omega

/-- A run of the month loop that ends reads the table at the month indices after the
starting one up to the final one, each once and in order. -/
theorem monthLoopReads_of_some (year : Nat) : ∀ (fuel dayno mon calDay r m : Nat),
    mon < 12 → monthLoop year fuel dayno mon calDay = some (r, m) →
    mon ≤ m ∧ monthLoopReads year fuel dayno mon calDay = List.range' (mon + 1) (m - mon) := by
  intro fuel
  induction fuel with
  | zero => intro dayno mon calDay r m _ h; simp [monthLoop] at h
  | succ n ih =>
    intro dayno mon calDay r m hmon h
    have hm1 : (mon + 1) % 256 = mon + 1 := Nat.mod_eq_of_lt (by omega)
    by_cases hc : dayno ≥ calDay
    · rw [monthLoop, if_pos hc] at h
      simp only [hm1] at h
      cases hlook : calender[mon + 1]? with
      | none => rw [hlook] at h; simp at h
      | some c =>
        rw [hlook] at h
        simp only at h
        have hlt : mon + 1 < 12 := by
          have := (List.getElem?_eq_some_iff.1 hlook).1
          simpa [calender] using this
        have hget : calender.getD (mon + 1) 0 = c := by
          rw [List.getD_eq_getElem?_getD, hlook]; rfl
        obtain ⟨k1, k2⟩ := ih _ _ _ r m hlt h
        refine ⟨by omega, ?_⟩
        rw [monthLoopReads, if_pos hc]
        simp only [hm1, hget, k2]
        have e : m - mon = (m - (mon + 1)) + 1 := by omega
        rw [e, List.range'_succ]
    · rw [monthLoop, if_neg hc] at h
      simp only [Option.some.injEq, Prod.mk.injEq] at h
      obtain ⟨-, h2⟩ := h
      subst h2
      rw [monthLoopReads, if_neg hc]
      simp

/-- Between 1901 and 2199 the only year divisible by 4 that is not a leap year is 2100. -/
theorem gregorianLeap_near (y : Nat) (h1 : 1901 ≤ y) (h2 : y ≤ 2199) :
    gregorianLeap y = decide (y % 4 = 0 ∧ y ≠ 2100) := by
  unfold gregorianLeap
  by_cases h : y % 4 = 0
  · by_cases h0 : y = 2100
    · subst h0; decide
    · have : y % 100 ≠ 0 ∨ y % 400 = 0 := by omega
      simp [h, h0, this]
  · simp [h]

/-- Days from 1 January 1970 to 1 January of the years 2101..2107: the count of
`daysBeforeYear_1970_closed` less the leap day that 2100 does not have. -/
theorem daysBeforeYear_1970_late : ∀ n, 131 ≤ n → n ≤ 137 →
    daysBeforeYear 1970 (1970 + n) + 1 = n * 365 + (n + 1) / 4 := by
  intro n h1
  induction n, h1 using Nat.le_induction with
  | base =>
    intro _
    have h0 := daysBeforeYear_1970_closed 130 (by decide)
    have hs := daysBeforeYear_succ 1970 (1970 + 130) (by decide)
    have hl : gregorianYearLength (1970 + 130) = 365 := by decide
    rw [hl, h0] at hs
    rw [show 1970 + 131 = 1970 + 130 + 1 from rfl, hs]
  | succ k hk ih =>
    intro h
    have ih2 := ih (by omega)
    have hl := gregorianLeap_near (1970 + k) (by omega) (by omega)
    have hyl : (if decide ((1970 + k) % 4 = 0 ∧ 1970 + k ≠ 2100) = true then 366 else 365) =
        if k % 4 = 2 then 366 else 365 := by
      by_cases h4 : (1970 + k) % 4 = 0 ∧ 1970 + k ≠ 2100
      · rw [if_pos (by simpa using h4), if_pos (by omega)]
      · rw [if_neg (by simpa using h4), if_neg (by omega)]
    rw [show 1970 + (k + 1) = (1970 + k) + 1 from rfl, daysBeforeYear_succ 1970 _ (by omega),
      gregorianYearLength, hl, hyl]
    by_cases hC : k % 4 = 2
    · rw [if_pos hC]; omega
    · rw [if_neg hC]; omega
/-- The months before any month of the year hold at most 334 days in the table. -/
theorem calender_take_le : ∀ k, k < 12 → (calender.take k).sum ≤ 334 := by
  decide

/-- Comparison of the day count of `getUnixTime` under the Epoch Year 1970 with the
Gregorian day count, for a date in 1970..2106: they differ by at most one day and agree
exactly on the stated years. -/
theorem dayCount_compare (y mon a e b : Nat) (hy1 : 1970 ≤ y) (hy2 : y ≤ 2106)
    (hb1 : y ≤ 2100 → b = (y - 1970) * 365 + (y - 1970 + 1) / 4)
    (hb2 : 2101 ≤ y → b + 1 = (y - 1970) * 365 + (y - 1970 + 1) / 4) :
    ((if y % 4 = 0 ∧ mon > 2 then 1 else 0) + a + (y - 1970) * 365 + (y - 1970) / 4 + e =
        b + (a + (if (y % 4 = 0 ∧ y ≠ 2100) ∧ mon > 2 then 1 else 0)) + e ↔
      (y ≤ 2099 ∧ y % 4 ≠ 1) ∨ (y = 2100 ∧ mon ≤ 2) ∨ y = 2101 ∨ y = 2105) ∧
    (if y % 4 = 0 ∧ mon > 2 then 1 else 0) + a + (y - 1970) * 365 + (y - 1970) / 4 + e ≤
        b + (a + (if (y % 4 = 0 ∧ y ≠ 2100) ∧ mon > 2 then 1 else 0)) + e + 1 ∧
    b + (a + (if (y % 4 = 0 ∧ y ≠ 2100) ∧ mon > 2 then 1 else 0)) + e ≤
        (if y % 4 = 0 ∧ mon > 2 then 1 else 0) + a + (y - 1970) * 365 + (y - 1970) / 4 + e + 1 := by
  by_cases h21 : y = 2100
  · subst h21
    have hb := hb1 (by omega)
    by_cases hm : mon > 2
    · rw [if_pos ⟨by decide, hm⟩, if_neg (fun h => h.1.2 rfl)]
      exact ⟨⟨fun h => by omega, fun h => by omega⟩, by omega, by omega⟩
    · rw [if_neg (fun h => hm h.2), if_neg (fun h => hm h.2)]
      exact ⟨⟨fun _ => Or.inr (Or.inl ⟨rfl, by omega⟩), fun _ => by omega⟩, by omega, by omega⟩
  · have hif : (if (y % 4 = 0 ∧ y ≠ 2100) ∧ mon > 2 then 1 else 0) =
        (if y % 4 = 0 ∧ mon > 2 then 1 else 0) := by
      simp only [ne_eq, h21, not_false_eq_true, and_true]
    rw [hif]
    generalize (if y % 4 = 0 ∧ mon > 2 then 1 else 0) = c
    obtain ⟨q, r, hr, hq⟩ : ∃ q r, r < 4 ∧ y = 4 * q + r := ⟨y / 4, y % 4, by omega, by omega⟩
    subst hq
    have g0 : (4 * q + r) % 4 = r := by omega
    rw [g0]
    interval_cases r <;> omega
/-- Seconds rebuilt from a day count that is off by at most one day equal the
original 32-bit value exactly when the day count is the right one. -/
theorem seconds_eq_iff (dd s : Nat) (hs : s < 2 ^ 32) (k2 : dd ≤ s / 86400 + 1)
    (k3 : s / 86400 ≤ dd + 1) :
    some ((((dd * 24 + s % 86400 / 3600) * 60 + s % 86400 % 3600 / 60) * 60 +
        s % 86400 % 60) % 2 ^ 32) = some s ↔ dd = s / 86400 := by
  have hc : ((dd * 24 + s % 86400 / 3600) * 60 + s % 86400 % 3600 / 60) * 60 +
      s % 86400 % 60 = dd * 86400 + s % 86400 := by omega
  rw [hc]
  have hs2 : s = s / 86400 * 86400 + s % 86400 := by omega
  generalize s / 86400 = D at *
  generalize s % 86400 = c at *
  constructor
  · intro h
    have h2 : (dd * 86400 + c) % 2 ^ 32 = s := Option.some.inj h
    rcases Nat.lt_trichotomy dd D with hlt | heq | hgt
    · have : dd + 1 = D := by omega
      subst this
      omega
    · exact heq
    · have : dd = D + 1 := by omega
      subst this
      omega
  · intro h
    subst h
    have e : (dd * 86400 + c) % 2 ^ 32 = s := by omega
    rw [e]

/-- The exact set of 32-bit time values on which `getUnixTime` undoes `makeDateTime`
under the Epoch Year 1970, in terms of the date `makeDateTime` returns. -/
theorem roundtrip_1970_iff (s : Nat) (hs : s < 2 ^ 32) :
    ∃ t, makeDateTime 1970 s = some t ∧
      (getUnixTime 1970 t = some s ↔
        (t.year ≤ 2099 ∧ t.year % 4 ≠ 1) ∨ (t.year = 2100 ∧ t.mon ≤ 2) ∨
          t.year = 2101 ∨ t.year = 2105) := by
  have hw : 1970 + s / 86400 / 365 < 65536 := by omega
  obtain ⟨t, h0, h1, h2, h3, h4, h5, h6, h7, h8, h9, h10, -⟩ := makeDateTime_spec 1970 s hw
  refine ⟨t, h0, ?_⟩
  have hy2 : t.year ≤ 2106 := by omega
  have hleap := gregorianLeap_near t.year (by omega) (by omega)
  have hbm := daysBeforeMonth_eq t.year (t.mon - 1) (by omega)
  have hmm : t.mon - 1 + 1 = t.mon := by omega
  rw [hmm, hleap] at hbm
  have hyy : 1970 + (t.year - 1970) = t.year := by omega
  have hb1 : t.year ≤ 2100 → daysBeforeYear 1970 t.year =
      (t.year - 1970) * 365 + (t.year - 1970 + 1) / 4 := by
    intro h
    have := daysBeforeYear_1970_closed (t.year - 1970) (by omega)
    rwa [hyy] at this
  have hb2 : 2101 ≤ t.year → daysBeforeYear 1970 t.year + 1 =
      (t.year - 1970) * 365 + (t.year - 1970 + 1) / 4 := by
    intro h
    have := daysBeforeYear_1970_late (t.year - 1970) (by omega) (by omega)
    rwa [hyy] at this
  have ha := calender_take_le (t.mon - 1) (by omega)
  simp only [daysFromEpoch, hbm, decide_eq_true_eq] at h7
  obtain ⟨k1, k2, k3⟩ := dayCount_compare t.year t.mon (calender.take (t.mon - 1)).sum
    (t.date - 1) (daysBeforeYear 1970 t.year) h1 hy2 hb1 hb2
  rw [h7] at k1 k2 k3
  clear hb1 hb2 hbm hleap ha h7 hyy hmm
  have hlt := Nat.lt_of_le_of_lt k2 (show s / 86400 + 1 < 2 ^ 32 by omega)
  rw [← k1, getUnixTime_eq 1970 t h1 h3 h4 h5 hlt, h8, h9, h10]
  generalize (if t.year % 4 = 0 ∧ t.mon > 2 then 1 else 0) + (calender.take (t.mon - 1)).sum +
    (t.year - 1970) * 365 + (t.year - 1970) / 4 + (t.date - 1) = dd at k2 k3 ⊢
  exact seconds_eq_iff dd s hs k2 k3

/-- The loop `while (dow>7) dow -= 7;` ends within `dow + 1` steps and, started from a
positive value, leaves the representative of `dow` modulo 7 in 1..7. -/
theorem dowLoop_eq : ∀ (fuel : Nat) (x : Int), 1 ≤ x → x.toNat < fuel →
    dowLoop fuel x = some ((x - 1) % 7 + 1) := by
  intro fuel
  induction fuel with
  | zero => intro x _ h; omega
  | succ n ih =>
    intro x h1 hf
    by_cases hc : x > 7
    · rw [dowLoop, if_pos hc, ih (x - 7) (by omega) (by omega)]
      congr 1
      omega
    · rw [dowLoop, if_neg hc]
      congr 1
      omega

/-- The arithmetic behind the weekday formula of `setDOW()`, for the year
`2000 + 4 * q + r`: the month offset exists, the sum stays positive, and its residue
agrees with the day count from 1 January 1970 shifted to Thursday. -/
theorem weekday_core (q r m dd : Nat) (hr : r < 4) (hm1 : 1 ≤ m) (hm2 : m ≤ 12)
    (hd : 1 ≤ dd) :
    ∃ mo : Nat, mArr[m - 1]? = some mo ∧
      1 + (if r = 0 ∧ m < 3 then 1 else 0) ≤ 5 * q + r * 5 / 4 + dd + mo ∧
      (5 * q + r * 5 / 4 + dd + mo - (if r = 0 ∧ m < 3 then 1 else 0) - 1) % 7 + 1 =
        (10957 + 1461 * q + 365 * r + (r + 3) / 4 + ((calender.take (m - 1)).sum +
          (if r = 0 ∧ m > 2 then 1 else 0)) + (dd - 1) + 3) % 7 + 1 := by
  interval_cases r <;> interval_cases m <;> refine ⟨_, rfl, ?_, ?_⟩ <;>
    simp only [mArr, List.getElem_cons_succ, List.getElem_cons_zero, calender, List.take,
      List.sum_cons, List.sum_nil, Nat.reduceSub, Nat.reduceLT, Nat.reduceAdd, and_true,
      and_false, if_true, if_false, true_and, false_and, Nat.reduceMul, Nat.reduceDiv,
      gt_iff_lt, Nat.reduceEqDiff, OfNat.ofNat_ne_zero, one_ne_zero] <;> omega

/-- The weekday formula of `setDOW()` on the years 2000..2099: the table entry exists
for a month in 1..12, the sum is positive and its residue in 1..7 is the Gregorian
weekday. -/
theorem dow_formula (y m dd : Nat) (hy1 : 2000 ≤ y) (hy2 : y ≤ 2099)
    (hm1 : 1 ≤ m) (hm2 : m ≤ 12) (hd : 1 ≤ dd) :
    ∃ mo : Nat, mArr[m - 1]? = some mo ∧
      1 ≤ (if (y % 4 = 0) ∧ (m < 3)
          then Int.tdiv (((y % 100 : Nat) : Int) * 5) 4 + (dd : Int) + (mo : Int) - 1
          else Int.tdiv (((y % 100 : Nat) : Int) * 5) 4 + (dd : Int) + (mo : Int)) ∧
      ((if (y % 4 = 0) ∧ (m < 3)
          then Int.tdiv (((y % 100 : Nat) : Int) * 5) 4 + (dd : Int) + (mo : Int) - 1
          else Int.tdiv (((y % 100 : Nat) : Int) * 5) 4 + (dd : Int) + (mo : Int)) - 1) % 7 + 1
        = ((gregorianWeekday y m dd : Nat) : Int) := by
  have hleap := gregorianLeap_century y (by omega) hy2
  have hbm := daysBeforeMonth_eq y (m - 1) (by omega)
  have hmm : m - 1 + 1 = m := by omega
  rw [hmm, hleap] at hbm
  have hby := daysBeforeYear_1970_closed (y - 1970) (by omega)
  have hyy : 1970 + (y - 1970) = y := by omega
  rw [hyy] at hby
  obtain ⟨q, r, hr, hq⟩ : ∃ q r, r < 4 ∧ y = 2000 + 4 * q + r :=
    ⟨(y - 2000) / 4, (y - 2000) % 4, by omega, by omega⟩
  subst hq
  have g1 : (2000 + 4 * q + r) % 100 = 4 * q + r := by omega
  have g2 : (4 * q + r) * 5 / 4 = 5 * q + r * 5 / 4 := by omega
  have g3 : (2000 + 4 * q + r) % 4 = r := by omega
  have g4 : (2000 + 4 * q + r - 1970) * 365 + (2000 + 4 * q + r - 1970 + 1) / 4 =
      10957 + 1461 * q + 365 * r + (r + 3) / 4 := by omega
  have et : Int.tdiv (((4 * q + r : Nat) : Int) * 5) 4 = ((5 * q + r * 5 / 4 : Nat) : Int) := by
    rw [Int.tdiv_eq_ediv (by omega) (by decide)]
    omega
  obtain ⟨mo, k1, k2, k3⟩ := weekday_core q r m dd hr hm1 hm2 hd
  refine ⟨mo, k1, ?_, ?_⟩
  · rw [g1, g3, et]
    by_cases hc : r = 0 ∧ m < 3
    · rw [if_pos hc] at k2 ⊢; omega
    · rw [if_neg hc] at k2 ⊢; omega
  · simp only [gregorianWeekday, daysFromEpoch, hbm, hby, decide_eq_true_eq, g1, g3, g4, et]
    rw [← k3]
    by_cases hc : r = 0 ∧ m < 3
    · simp only [if_pos hc] at k2 ⊢; omega
    · simp only [if_neg hc] at k2 ⊢; omega

/-- The months before month `m + 1` are the months before `m` and month `m`. -/
theorem daysBeforeMonth_succ (y m : Nat) (hm : 1 ≤ m) :
    daysBeforeMonth y (m + 1) = daysBeforeMonth y m + gregorianMonthLength y m := by
  unfold daysBeforeMonth
  have e : m + 1 - 1 = (m - 1) + 1 := by omega
  have e2 : 1 + (m - 1) = m := by omega
  rw [e, List.range'_concat, List.map_append, List.sum_append]
  simp [e2]

/-- A later month starts after the end of an earlier one. -/
theorem daysBeforeMonth_lt (y m : Nat) (hm : 1 ≤ m) : ∀ m2, m + 1 ≤ m2 →
    daysBeforeMonth y m + gregorianMonthLength y m ≤ daysBeforeMonth y m2 := by
  intro m2 h
  induction m2, h using Nat.le_induction with
  | base => rw [daysBeforeMonth_succ y m hm]
  | succ k hk ih =>
    rw [daysBeforeMonth_succ y k (by omega)]
    omega

/-- The twelve months of a year add up to the length of the year. -/
theorem daysBeforeMonth_13 (y : Nat) : daysBeforeMonth y 13 = gregorianYearLength y := by
  cases hb : gregorianLeap y with
  | true =>
    rw [daysBeforeMonth_congr y 4 (by rw [hb]; decide), gregorianYearLength, hb]
    decide
  | false =>
    rw [daysBeforeMonth_congr y 1 (by rw [hb]; decide), gregorianYearLength, hb]
    decide

/-- The day of the year of a Gregorian date is below the length of the year. -/
theorem dayOfYear_lt (y m d : Nat) (h : validGregorianDate y m d) :
    daysBeforeMonth y m + (d - 1) < gregorianYearLength y := by
  obtain ⟨h1, h2, h3, h4⟩ := h
  have := daysBeforeMonth_lt y m h1 13 (by omega)
  rw [daysBeforeMonth_13] at this
  omega

/-- A later year starts after the end of an earlier one. -/
theorem daysBeforeYear_lt (E y : Nat) (hy : E ≤ y) : ∀ y2, y + 1 ≤ y2 →
    daysBeforeYear E y + gregorianYearLength y ≤ daysBeforeYear E y2 := by
  intro y2 h
  induction y2, h using Nat.le_induction with
  | base => rw [daysBeforeYear_succ E y hy]
  | succ k hk ih =>
    rw [daysBeforeYear_succ E k (by omega)]
    omega

/-- Two Gregorian dates of the same year with the same day of the year are equal. -/
theorem dayOfYear_inj (y m d m2 d2 : Nat) (h : validGregorianDate y m d)
    (h2 : validGregorianDate y m2 d2)
    (he : daysBeforeMonth y m + (d - 1) = daysBeforeMonth y m2 + (d2 - 1)) :
    m = m2 ∧ d = d2 := by
  obtain ⟨a1, a2, a3, a4⟩ := h
  obtain ⟨b1, b2, b3, b4⟩ := h2
  rcases Nat.lt_trichotomy m m2 with hlt | heq | hgt
  · have := daysBeforeMonth_lt y m a1 m2 (by omega)
    omega
  · subst heq
    exact ⟨rfl, by omega⟩
  · have := daysBeforeMonth_lt y m2 b1 m (by omega)
    omega

/-- The day count from 1 January of the Epoch Year tells Gregorian dates apart: two
dates not before the epoch with the same count are the same date. -/
theorem daysFromEpoch_inj (E y m d y2 m2 d2 : Nat) (hy : E ≤ y) (hy2 : E ≤ y2)
    (h : validGregorianDate y m d) (h2 : validGregorianDate y2 m2 d2)
    (he : daysFromEpoch E y m d = daysFromEpoch E y2 m2 d2) :
    y = y2 ∧ m = m2 ∧ d = d2 := by
  have k := dayOfYear_lt y m d h
  have k2 := dayOfYear_lt y2 m2 d2 h2
  unfold daysFromEpoch at he
  rcases Nat.lt_trichotomy y y2 with hlt | heq | hgt
  · have := daysBeforeYear_lt E y hy y2 (by omega)
    omega
  · subst heq
    exact ⟨rfl, dayOfYear_inj y m d m2 d2 h h2 (by omega)⟩
  · have := daysBeforeYear_lt E y2 hy2 y (by omega)
    omega

/-! ## Claims on the BCD codec -/

/-- C1 (as amended): for every `v` in 0..79, `_decode (_encode v) = v`; for `v` in
80..99 the 7-bit mask of `_decode` removes the top bit of the tens digit and the result is
`v - 80`; the unmasked year decoder `_decodeY` inverts `_encode` on all of 0..99. -/
theorem decode_encode_roundtrip :
    (∀ v, v < 80 → _decode (_encode v) = v) ∧
    (∀ v, v < 100 → 80 ≤ v → _decode (_encode v) = v - 80) ∧
    (∀ v, v < 100 → _decodeY (_encode v) = v) := by
  decide

/-- Witness for `decode_encode_roundtrip` at `v = 79` (masked decoder) and `v = 99` (both
decoders). -/
theorem decode_encode_roundtrip_witness :
    (79 : Nat) < 80 ∧ _decode (_encode 79) = 79 ∧ _decode (_encode 99) = 99 - 80 ∧
    _decodeY (_encode 99) = 99 :=
  ⟨by decide, decode_encode_roundtrip.1 79 (by decide),
   decode_encode_roundtrip.2.1 99 (by decide) (by decide),
   decode_encode_roundtrip.2.2 99 (by decide)⟩

/-- C1 fails as stated: 80 lies in 0..99 and `_decode (_encode 80)` is 0, not 80. -/
theorem decode_encode_80 : (80 : Nat) ≤ 99 ∧ _encode 80 = 0x80 ∧ _decode (_encode 80) = 0 ∧
    _decode (_encode 80) ≠ 80 := by
  decide

/-- C9: for every `h` in 0..23, `_decodeH (_encode h) = h`. -/
theorem decodeH_encode_roundtrip (h : Nat) (hh : h < 24) : _decodeH (_encode h) = h :=
  decodeH_encode_lt_24 h hh

/-- Witness for `decodeH_encode_roundtrip` at `h = 23`. -/
theorem decodeH_encode_roundtrip_witness : (23 : Nat) < 24 ∧ _decodeH (_encode 23) = 23 :=
  ⟨by decide, decodeH_encode_roundtrip 23 (by decide)⟩

/-- The two branches of `_decodeH` on 8-bit values, by exhaustion. -/
theorem decodeH_bounds : ∀ b, b < 256 →
    _decodeH b ≤ 45 ∧ (b &&& 128 ≠ 0 → _decodeH b ≤ 27) := by
  decide

/-- C10 (as amended): for every 8-bit hours-register value `b`, `_decodeH b ≤ 45`, and
`_decodeH b ≤ 27` in the branch taken when bit 7 is set; hence the hour field of the
`Time` returned by `getTime` is at most 45.  The bound 23 holds when the hours register
holds the 24-hour encoding `_encode h` of some `h` in 0..23: `getTime` then returns
exactly `h`. -/
theorem decodeH_range (d : Driver) :
    (∀ b, b < 256 → _decodeH b ≤ 45 ∧ (b &&& 128 ≠ 0 → _decodeH b ≤ 27)) ∧
    (getTime d).1.hour ≤ 45 ∧
    (∀ h, h < 24 → d.regs REG_HOUR = _encode h → (getTime d).1.hour = h) := by
  refine ⟨decodeH_bounds, ?_, ?_⟩
  · have hb : d.regs 2 % 256 < 256 := Nat.mod_lt _ (by decide)
    simpa [getTime, _burstRead] using (decodeH_bounds _ hb).1
  · intro h hh hreg
    have hreg2 : d.regs 2 = _encode h := hreg
    have : (getTime d).1.hour = _decodeH (_encode h) := by
      simp [getTime, _burstRead, hreg2, Nat.mod_eq_of_lt (encode_lt h)]
    rw [this]
    exact decodeH_encode_lt_24 h hh

/-- Witness for `decodeH_range`: an hours register holding `_encode 23 = 0x23`. -/
theorem decodeH_range_witness :
    (23 : Nat) < 24 ∧
    (getTime (_writeRegister Driver.fresh REG_HOUR (_encode 23))).1.hour = 23 :=
  ⟨by decide,
   (decodeH_range (_writeRegister Driver.fresh REG_HOUR (_encode 23))).2.2 23 (by decide)
     (by decide)⟩

/-- C10 fails as stated: the 8-bit register values `0x3F` (bit 7 clear) and `0xAF`
(bit 7 set) decode to 45 and 27, and `getTime` on a chip whose hours register holds
`0x3F` returns hour 45. -/
theorem decodeH_exceeds_23 :
    (0x3F : Nat) < 256 ∧ ¬ (_decodeH 0x3F ≤ 23) ∧
    (0xAF : Nat) < 256 ∧ ¬ (_decodeH 0xAF ≤ 23) ∧
    (getTime (_writeRegister Driver.fresh REG_HOUR 0x3F)).1.hour = 45 := by
  decide

/-! ## Claims on the calendar engine -/

/-- C2 (defect in the code): under the Epoch Year 1970 `getUnixTime` does not undo
`makeDateTime` on every 32-bit value.  `s = 94694400` is mapped by `makeDateTime` to
1973-01-01 00:00:00, day 1096 from 1970-01-01, and `getUnixTime` counts
`3 * 365 + 3 / 4 = 1095` days for that record and returns 94608000, one day short: the
leap day of 1972 is missing from `(year - YEAR0) / 4`.  The same happens at
`s = 1735689600`, 2025-01-01.  The three values the specification names, 951782399,
951782400 and 951868800, are returned unchanged. -/
theorem getUnixTime_misses_leap_day :
    (94694400 : Nat) < 2 ^ 32 ∧
    makeDateTime 1970 94694400 = some
      { year := 1973, mon := 1, date := 1, hour := 0, min := 0, sec := 0, dow := 1 } ∧
    daysFromEpoch 1970 1973 1 1 = 1096 ∧ 1096 * 86400 = 94694400 ∧
    getUnixTime 1970
      { year := 1973, mon := 1, date := 1, hour := 0, min := 0, sec := 0, dow := 1 } =
      some (1095 * 86400) ∧
    (makeDateTime 1970 94694400 >>= getUnixTime 1970) ≠ some 94694400 ∧
    makeDateTime 1970 1735689600 = some
      { year := 2025, mon := 1, date := 1, hour := 0, min := 0, sec := 0, dow := 3 } ∧
    (makeDateTime 1970 1735689600 >>= getUnixTime 1970) = some (1735689600 - 86400) ∧
    (makeDateTime 1970 951782399 >>= getUnixTime 1970) = some 951782399 ∧
    (makeDateTime 1970 951782400 >>= getUnixTime 1970) = some 951782400 ∧
    (makeDateTime 1970 951868800 >>= getUnixTime 1970) = some 951868800 := by
  decide

/-- C3: for every Epoch Year `E ≤ 9999` and every 32-bit unsigned `s`, `makeDateTime`
returns a record with `1 ≤ mon ≤ 12` and `1 ≤ date ≤ L`, where `L` is the length of
month `mon` of the result year under the full Gregorian leap-year rule. -/
theorem makeDateTime_valid_date (E s : Nat) (hE : E ≤ 9999) (hs : s < 2 ^ 32) :
    ∃ t, makeDateTime E s = some t ∧ 1 ≤ t.mon ∧ t.mon ≤ 12 ∧ 1 ≤ t.date ∧
      t.date ≤ gregorianMonthLength t.year t.mon := by
  obtain ⟨t, h0, -, -, h3, h4, h5, h6, -⟩ := makeDateTime_spec E s (by omega)
  exact ⟨t, h0, h3, h4, h5, h6⟩

/-- Witness for `makeDateTime_valid_date`: with `E = 1970`, day 19782 is 2024-02-29
and day 19417 is 2023-03-01 (2023 has no 29 February). -/
theorem makeDateTime_valid_date_witness :
    (∃ t, makeDateTime 1970 (19782 * 86400) = some t ∧ 1 ≤ t.mon ∧ t.mon ≤ 12 ∧ 1 ≤ t.date ∧
      t.date ≤ gregorianMonthLength t.year t.mon) ∧
    makeDateTime 1970 (19782 * 86400) = some
      { year := 2024, mon := 2, date := 29, hour := 0, min := 0, sec := 0, dow := 4 } ∧
    makeDateTime 1970 (19417 * 86400) = some
      { year := 2023, mon := 3, date := 1, hour := 0, min := 0, sec := 0, dow := 3 } ∧
    gregorianMonthLength 2024 2 = 29 ∧ gregorianMonthLength 2023 2 = 28 :=
  ⟨makeDateTime_valid_date 1970 (19782 * 86400) (by decide) (by decide),
   by decide, by decide, by decide, by decide⟩

/-- C4: for every Epoch Year `E ≤ 9999` and every 32-bit unsigned `s`, `makeDateTime`
returns a record `(year, mon, date)` with `year ≥ E` that is a date of the Gregorian
calendar (month in 1..12, day within the length of the month) and such that the number
of whole days from 1 January of year `E` to `(year, mon, date)`, counted with the full
Gregorian leap-year rule and the month-length table, equals `s / 86400`.  It is the
only Gregorian date not before the epoch with this day count. -/
theorem makeDateTime_day_count (E s : Nat) (hE : E ≤ 9999) (hs : s < 2 ^ 32) :
    ∃ t, makeDateTime E s = some t ∧ E ≤ t.year ∧
      validGregorianDate t.year t.mon t.date ∧
      daysFromEpoch E t.year t.mon t.date = s / 86400 ∧
      (∀ y m d, E ≤ y → validGregorianDate y m d → daysFromEpoch E y m d = s / 86400 →
        y = t.year ∧ m = t.mon ∧ d = t.date) := by
  obtain ⟨t, h0, h1, -, h3, h4, h5, h6, h7, -⟩ := makeDateTime_spec E s (by omega)
  have hv : validGregorianDate t.year t.mon t.date := ⟨h3, h4, h5, h6⟩
  refine ⟨t, h0, h1, hv, h7, ?_⟩
  intro y m d hy hd he
  exact daysFromEpoch_inj E y m d t.year t.mon t.date hy h1 hd hv (by rw [he, h7])

/-- Witness for `makeDateTime_day_count`: Epoch Year 2000 and
`s = (366 + 31 + 28) * 86400 + 5`, which is 2001-03-01 00:00:05, day 425.  The day count
alone would also fit the non-date "60 January 2001"; that it is no Gregorian date is
what singles out 1 March. -/
theorem makeDateTime_day_count_witness :
    (∃ t, makeDateTime 2000 ((366 + 31 + 28) * 86400 + 5) = some t ∧ 2000 ≤ t.year ∧
      validGregorianDate t.year t.mon t.date ∧
      daysFromEpoch 2000 t.year t.mon t.date = ((366 + 31 + 28) * 86400 + 5) / 86400 ∧
      (∀ y m d, 2000 ≤ y → validGregorianDate y m d →
        daysFromEpoch 2000 y m d = ((366 + 31 + 28) * 86400 + 5) / 86400 →
        y = t.year ∧ m = t.mon ∧ d = t.date)) ∧
    makeDateTime 2000 ((366 + 31 + 28) * 86400 + 5) = some
      { year := 2001, mon := 3, date := 1, hour := 0, min := 0, sec := 5, dow := 2 } ∧
    daysFromEpoch 2000 2001 3 1 = 425 ∧ daysFromEpoch 2000 2001 1 60 = 425 ∧
    ¬ validGregorianDate 2001 1 60 :=
  ⟨makeDateTime_day_count 2000 ((366 + 31 + 28) * 86400 + 5) (by decide) (by decide),
   by decide, by decide, by decide, by decide⟩

/-- C5: for every chip state whose decoded `Time` (as `getTime` returns it) has a valid
Gregorian date with year in 2000..2099, `setDOW()` returns, performs exactly one
register write, to the day-of-week register 0x03, and the value written is in 1..7 and
is the weekday of `(year, mon, date)` on the scale Monday = 1 .. Sunday = 7; no other
register changes and the Epoch Year is kept. -/
theorem setDOW_true_weekday (d : Driver)
    (hy1 : 2000 ≤ (getTime d).1.year) (hy2 : (getTime d).1.year ≤ 2099)
    (hv : validGregorianDate (getTime d).1.year (getTime d).1.mon (getTime d).1.date) :
    ∃ d1, setDOW d = some d1 ∧
      1 ≤ gregorianWeekday (getTime d).1.year (getTime d).1.mon (getTime d).1.date ∧
      gregorianWeekday (getTime d).1.year (getTime d).1.mon (getTime d).1.date ≤ 7 ∧
      d1.writes = d.writes ++
        [(0x03, gregorianWeekday (getTime d).1.year (getTime d).1.mon (getTime d).1.date)] ∧
      (∀ r, d1.regs r =
        if r = 0x03 then
          gregorianWeekday (getTime d).1.year (getTime d).1.mon (getTime d).1.date
        else d.regs r) ∧
      d1.YEAR0 = d.YEAR0 := by
  have hd2 : (getTime d).2 = _burstRead d := rfl
  rcases hg : getTime d with ⟨t, d2⟩
  rw [hg] at hy1 hy2 hv hd2
  simp only at hy1 hy2 hv hd2 ⊢
  obtain ⟨hm1, hm2, hdd, -⟩ := hv
  obtain ⟨mo, k1, k2, k3⟩ := dow_formula t.year t.mon t.date hy1 hy2 hm1 hm2 hdd
  have hw1 : 1 ≤ gregorianWeekday t.year t.mon t.date := by
    unfold gregorianWeekday; omega
  have hw2 : gregorianWeekday t.year t.mon t.date ≤ 7 := by
    unfold gregorianWeekday; omega
  have hloop := dowLoop_eq _ _ k2 (Nat.lt_succ_self _)
  rw [k3] at hloop
  have hbyte : (((gregorianWeekday t.year t.mon t.date : Nat) : Int) % 256).toNat
      = gregorianWeekday t.year t.mon t.date := by omega
  have key : setDOW d = some (_writeRegister d2 REG_DOW
      (gregorianWeekday t.year t.mon t.date)) := by
    unfold setDOW
    rw [hg]
    simp only [if_neg (show ¬ t.mon = 0 by omega), k1, hloop, hbyte]
  refine ⟨_, key, hw1, hw2, ?_, ?_, ?_⟩
  · rw [writeRegister_writes, hd2, Nat.mod_eq_of_lt (by omega)]
    rfl
  · intro r
    rw [writeRegister_regs, hd2, Nat.mod_eq_of_lt (by omega)]
    rfl
  · rw [writeRegister_YEAR0, hd2]
    rfl

/-- Witness for `setDOW_true_weekday`: a chip set to 2024-01-01 under the Epoch Year
2000; the value written to register 0x03 is 1 (Monday). -/
theorem setDOW_true_weekday_witness :
    gregorianWeekday 2024 1 1 = 1 ∧
    ∃ d1, setDOW (setDate Driver.fresh 1 1 2024 2000) = some d1 ∧
      d1.writes = (setDate Driver.fresh 1 1 2024 2000).writes ++
        [(0x03, gregorianWeekday 2024 1 1)] := by
  refine ⟨by decide, ?_⟩
  obtain ⟨d1, h1, -, -, h4, -⟩ :=
    setDOW_true_weekday (setDate Driver.fresh 1 1 2024 2000) (by decide) (by decide)
      (by decide)
  exact ⟨d1, h1, h4⟩

/-! ## Claims on validation -/

/-- C6: for every `(sec, min, hour)` of 8-bit values with `sec ≥ 60` or `min ≥ 60` or
`hour ≥ 24`, `setTime` returns the driver unchanged: no register write is put on the
bus, and every register and the Epoch Year keep their values. -/
theorem setTime_rejects (d : Driver) (sec min hour : Nat)
    (hsec : sec < 256) (hmin : min < 256) (hhour : hour < 256)
    (h : sec ≥ 60 ∨ min ≥ 60 ∨ hour ≥ 24) :
    setTime d sec min hour = d := by
  unfold setTime
  rw [if_neg]
  omega

/-- Witness for `setTime_rejects`: `setTime(60, 0, 0)`. -/
theorem setTime_rejects_witness :
    (60 ≥ 60 ∨ 0 ≥ 60 ∨ 0 ≥ 24) ∧ setTime Driver.fresh 60 0 0 = Driver.fresh :=
  ⟨by decide,
   setTime_rejects Driver.fresh 60 0 0 (by decide) (by decide) (by decide) (by decide)⟩

/-- C7 (as amended): for every call `setDate(date, mon, year, epochYear)` that fails
validation (`date` outside 1..31, or `mon` outside 1..12, or the 16-bit difference
`year - epochYear` outside 0..99), no register is written: the register file, the
write log and the snapshot buffer are those before the call.  The Epoch Year is
assigned before the range test, so after the call it is `epochYear` whether or not
validation succeeded. -/
theorem setDate_rejects (d : Driver) (date mon year epochYear : Nat)
    (hdate : date < 256) (hmon : mon < 256) (hyear : year < 65536) (hepoch : epochYear < 65536)
    (h : ¬ (1 ≤ date ∧ date ≤ 31) ∨ ¬ (1 ≤ mon ∧ mon ≤ 12) ∨
         ¬ ((year + 65536 - epochYear) % 65536 ≤ 99)) :
    setDate d date mon year epochYear = { d with YEAR0 := epochYear } ∧
    (setDate d date mon year epochYear).regs = d.regs ∧
    (setDate d date mon year epochYear).writes = d.writes ∧
    (setDate d date mon year epochYear).YEAR0 = epochYear := by
  have e : setDate d date mon year epochYear = { d with YEAR0 := epochYear } := by
    unfold setDate
    simp only []
    rw [if_neg]
    omega
  rw [e]
  exact ⟨rfl, rfl, rfl, rfl⟩

/-- Witness for `setDate_rejects`: `setDate(0, 1, 2024, 2000)` (date 0). -/
theorem setDate_rejects_witness :
    ¬ (1 ≤ 0 ∧ 0 ≤ 31) ∧
    (setDate Driver.fresh 0 1 2024 2000).writes = [] ∧
    (setDate Driver.fresh 0 1 2024 2000).YEAR0 = 2000 :=
  ⟨by decide,
   (setDate_rejects Driver.fresh 0 1 2024 2000 (by decide) (by decide) (by decide) (by decide)
     (Or.inl (by decide))).2.2.1,
   (setDate_rejects Driver.fresh 0 1 2024 2000 (by decide) (by decide) (by decide) (by decide)
     (Or.inl (by decide))).2.2.2⟩

/-- C7 fails as stated: `setDate(0, 1, 2024, 2000)` fails validation (date 0), yet on
a driver whose Epoch Year is 1970 it leaves the Epoch Year at 2000, so the state after
the call differs from the state before it. -/
theorem setDate_invalid_changes_YEAR0 :
    ¬ (1 ≤ 0 ∧ 0 ≤ 31) ∧
    Driver.fresh.YEAR0 = 1970 ∧
    (setDate Driver.fresh 0 1 2024 2000).YEAR0 = 2000 ∧
    setDate Driver.fresh 0 1 2024 2000 ≠ Driver.fresh := by
  refine ⟨by decide, rfl, by decide, ?_⟩
  intro hc
  have h2 : (setDate Driver.fresh 0 1 2024 2000).YEAR0 = Driver.fresh.YEAR0 := by rw [hc]
  revert h2
  decide

/-! ## Claims on the alarm registers -/

/-- C8: for every alarm type `a` with bit 7 clear and every `sec, min, hour, daydate`
in 0..79, `setAlarm` writes exactly the four registers 0x07, 0x08, 0x09, 0x0A, in this
order, with the values `encode(sec) | (bit0(a) << 7)`, `encode(min) | (bit1(a) << 7)`,
`encode(hour) | (bit2(a) << 7)` and
`encode(daydate) | (bit3(a) << 7) | (bit4(a) << 6)`; every other register and the
Epoch Year are unchanged. -/
theorem setAlarm_alarm1 (d : Driver) (a sec min hour daydate : Nat)
    (ha : a &&& 0x80 = 0)
    (_hsec : sec ≤ 79) (_hmin : min ≤ 79) (_hhour : hour ≤ 79) (_hdd : daydate ≤ 79) :
    (setAlarm d a sec min hour daydate).writes = d.writes ++
      [(0x07, _encode sec ||| ((a % 2) <<< 7)),
       (0x08, _encode min ||| ((a / 2 % 2) <<< 7)),
       (0x09, _encode hour ||| ((a / 4 % 2) <<< 7)),
       (0x0A, _encode daydate ||| ((a / 8 % 2) <<< 7) ||| ((a / 16 % 2) <<< 6))] ∧
    (∀ r, (setAlarm d a sec min hour daydate).regs r =
      if r = 0x07 then _encode sec ||| ((a % 2) <<< 7)
      else if r = 0x08 then _encode min ||| ((a / 2 % 2) <<< 7)
      else if r = 0x09 then _encode hour ||| ((a / 4 % 2) <<< 7)
      else if r = 0x0A then
        _encode daydate ||| ((a / 8 % 2) <<< 7) ||| ((a / 16 % 2) <<< 6)
      else d.regs r) ∧
    (setAlarm d a sec min hour daydate).YEAR0 = d.YEAR0 := by
  have es := encode_lt sec
  have em := encode_lt min
  have eh := encode_lt hour
  have ed := encode_lt daydate
  have hs : (if a &&& 0x01 ≠ 0 then (_encode sec ||| (1 <<< A1M1)) % 256 else _encode sec)
      = _encode sec ||| ((a % 2) <<< 7) := by
    simpa using mask_byte a 0 7 (_encode sec) es (by decide)
  have hm : (if a &&& 0x02 ≠ 0 then (_encode min ||| (1 <<< A1M2)) % 256 else _encode min)
      = _encode min ||| ((a / 2 % 2) <<< 7) := by
    simpa using mask_byte a 1 7 (_encode min) em (by decide)
  have hh : (if a &&& 0x04 ≠ 0 then (_encode hour ||| (1 <<< A1M3)) % 256 else _encode hour)
      = _encode hour ||| ((a / 4 % 2) <<< 7) := by
    simpa using mask_byte a 2 7 (_encode hour) eh (by decide)
  have hd1 : (if a &&& 0x10 ≠ 0 then (_encode daydate ||| (1 <<< DYDT)) % 256
      else _encode daydate) = _encode daydate ||| ((a / 16 % 2) <<< 6) := by
    simpa using mask_byte a 4 6 (_encode daydate) ed (by decide)
  have ld1 := mask_lt (_encode daydate) (a / 16) 6 ed (by decide)
  have hcomm : _encode daydate ||| ((a / 8 % 2) <<< 7) ||| ((a / 16 % 2) <<< 6)
      = _encode daydate ||| ((a / 16 % 2) <<< 6) ||| ((a / 8 % 2) <<< 7) := by
    rw [Nat.or_assoc, Nat.or_comm ((a / 8 % 2) <<< 7), ← Nat.or_assoc]
  have hd2 : (if a &&& 0x08 ≠ 0 then
        ((_encode daydate ||| ((a / 16 % 2) <<< 6)) ||| (1 <<< A1M4)) % 256
      else _encode daydate ||| ((a / 16 % 2) <<< 6))
      = _encode daydate ||| ((a / 8 % 2) <<< 7) ||| ((a / 16 % 2) <<< 6) := by
    have := mask_byte a 3 7 (_encode daydate ||| ((a / 16 % 2) <<< 6)) ld1 (by decide)
    rw [hcomm]
    simpa using this
  have ls := mask_lt (_encode sec) a 7 es (by decide)
  have lm := mask_lt (_encode min) (a / 2) 7 em (by decide)
  have lh := mask_lt (_encode hour) (a / 4) 7 eh (by decide)
  have ld : _encode daydate ||| ((a / 8 % 2) <<< 7) ||| ((a / 16 % 2) <<< 6) < 256 := by
    rw [hcomm]
    exact mask_lt _ (a / 8) 7 ld1 (by decide)
  have key : setAlarm d a sec min hour daydate =
      _writeRegister (_writeRegister (_writeRegister (_writeRegister d 0x07
        (_encode sec ||| ((a % 2) <<< 7))) 0x08
        (_encode min ||| ((a / 2 % 2) <<< 7))) 0x09
        (_encode hour ||| ((a / 4 % 2) <<< 7))) 0x0A
        (_encode daydate ||| ((a / 8 % 2) <<< 7) ||| ((a / 16 % 2) <<< 6)) := by
    unfold setAlarm
    simp only [hs, hm, hh, hd1, hd2, ha, if_true, ALM1_SECONDS]
  rw [key]
  refine ⟨?_, ?_, rfl⟩
  · simp only [writeRegister_writes, Nat.mod_eq_of_lt ls, Nat.mod_eq_of_lt lm,
      Nat.mod_eq_of_lt lh, Nat.mod_eq_of_lt ld, List.append_assoc, List.cons_append,
      List.nil_append]
  · intro r
    simp only [writeRegister_regs, Nat.mod_eq_of_lt ls, Nat.mod_eq_of_lt lm,
      Nat.mod_eq_of_lt lh, Nat.mod_eq_of_lt ld]
    split_ifs <;> first | rfl | omega

/-- Witness for `setAlarm_alarm1`: `setAlarm(ALM1_MATCH_SECONDS = 0x0E, 30, 0, 0, 1)`
writes `0x30, 0x80, 0x80, 0x81` to registers 0x07..0x0A. -/
theorem setAlarm_alarm1_witness :
    (0x0E &&& 0x80 = 0) ∧
    (setAlarm Driver.fresh 0x0E 30 0 0 1).writes =
      [(0x07, 0x30), (0x08, 0x80), (0x09, 0x80), (0x0A, 0x81)] :=
  ⟨by decide,
   (setAlarm_alarm1 Driver.fresh 0x0E 30 0 0 1 (by decide) (by decide) (by decide)
     (by decide) (by decide)).1⟩

/-- C15: for every alarm type `a` with bit 7 set and every `sec, min, hour, daydate`,
`setAlarm` writes exactly the three registers 0x0B, 0x0C, 0x0D (minutes, hours and
day/date bytes, in this order), leaves every Alarm 1 register 0x07..0x0A as it was, and
the resulting driver state does not depend on `sec`. -/
theorem setAlarm_alarm2 (d : Driver) (a sec min hour daydate : Nat) (ha : a &&& 0x80 ≠ 0) :
    (setAlarm d a sec min hour daydate).writes = d.writes ++
      [(0x0B, _encode min ||| ((a / 2 % 2) <<< 7)),
       (0x0C, _encode hour ||| ((a / 4 % 2) <<< 7)),
       (0x0D, _encode daydate ||| ((a / 8 % 2) <<< 7) ||| ((a / 16 % 2) <<< 6))] ∧
    (∀ r, (setAlarm d a sec min hour daydate).regs r =
      if r = 0x0B then _encode min ||| ((a / 2 % 2) <<< 7)
      else if r = 0x0C then _encode hour ||| ((a / 4 % 2) <<< 7)
      else if r = 0x0D then
        _encode daydate ||| ((a / 8 % 2) <<< 7) ||| ((a / 16 % 2) <<< 6)
      else d.regs r) ∧
    (∀ r, 0x07 ≤ r → r ≤ 0x0A → (setAlarm d a sec min hour daydate).regs r = d.regs r) ∧
    (∀ sec2, setAlarm d a sec2 min hour daydate = setAlarm d a sec min hour daydate) := by
  have em := encode_lt min
  have eh := encode_lt hour
  have ed := encode_lt daydate
  have hm : (if a &&& 0x02 ≠ 0 then (_encode min ||| (1 <<< A1M2)) % 256 else _encode min)
      = _encode min ||| ((a / 2 % 2) <<< 7) := by
    simpa using mask_byte a 1 7 (_encode min) em (by decide)
  have hh : (if a &&& 0x04 ≠ 0 then (_encode hour ||| (1 <<< A1M3)) % 256 else _encode hour)
      = _encode hour ||| ((a / 4 % 2) <<< 7) := by
    simpa using mask_byte a 2 7 (_encode hour) eh (by decide)
  have hd1 : (if a &&& 0x10 ≠ 0 then (_encode daydate ||| (1 <<< DYDT)) % 256
      else _encode daydate) = _encode daydate ||| ((a / 16 % 2) <<< 6) := by
    simpa using mask_byte a 4 6 (_encode daydate) ed (by decide)
  have ld1 := mask_lt (_encode daydate) (a / 16) 6 ed (by decide)
  have hcomm : _encode daydate ||| ((a / 8 % 2) <<< 7) ||| ((a / 16 % 2) <<< 6)
      = _encode daydate ||| ((a / 16 % 2) <<< 6) ||| ((a / 8 % 2) <<< 7) := by
    rw [Nat.or_assoc, Nat.or_comm ((a / 8 % 2) <<< 7), ← Nat.or_assoc]
  have hd2 : (if a &&& 0x08 ≠ 0 then
        ((_encode daydate ||| ((a / 16 % 2) <<< 6)) ||| (1 <<< A1M4)) % 256
      else _encode daydate ||| ((a / 16 % 2) <<< 6))
      = _encode daydate ||| ((a / 8 % 2) <<< 7) ||| ((a / 16 % 2) <<< 6) := by
    have := mask_byte a 3 7 (_encode daydate ||| ((a / 16 % 2) <<< 6)) ld1 (by decide)
    rw [hcomm]
    simpa using this
  have lm := mask_lt (_encode min) (a / 2) 7 em (by decide)
  have lh := mask_lt (_encode hour) (a / 4) 7 eh (by decide)
  have ld : _encode daydate ||| ((a / 8 % 2) <<< 7) ||| ((a / 16 % 2) <<< 6) < 256 := by
    rw [hcomm]
    exact mask_lt _ (a / 8) 7 ld1 (by decide)
  have key : ∀ sec2, setAlarm d a sec2 min hour daydate =
      _writeRegister (_writeRegister (_writeRegister d 0x0B
        (_encode min ||| ((a / 2 % 2) <<< 7))) 0x0C
        (_encode hour ||| ((a / 4 % 2) <<< 7))) 0x0D
        (_encode daydate ||| ((a / 8 % 2) <<< 7) ||| ((a / 16 % 2) <<< 6)) := by
    intro sec2
    unfold setAlarm
    simp only [hm, hh, hd1, hd2, ha, if_false, ALM2_MINUTES]
  have hregs : ∀ r, (setAlarm d a sec min hour daydate).regs r =
      if r = 0x0B then _encode min ||| ((a / 2 % 2) <<< 7)
      else if r = 0x0C then _encode hour ||| ((a / 4 % 2) <<< 7)
      else if r = 0x0D then
        _encode daydate ||| ((a / 8 % 2) <<< 7) ||| ((a / 16 % 2) <<< 6)
      else d.regs r := by
    intro r
    rw [key sec]
    simp only [writeRegister_regs, Nat.mod_eq_of_lt lm, Nat.mod_eq_of_lt lh,
      Nat.mod_eq_of_lt ld]
    split_ifs <;> first | rfl | omega
  refine ⟨?_, hregs, ?_, ?_⟩
  · rw [key sec]
    simp only [writeRegister_writes, Nat.mod_eq_of_lt lm, Nat.mod_eq_of_lt lh,
      Nat.mod_eq_of_lt ld, List.append_assoc, List.cons_append, List.nil_append]
  · intro r h1 h2
    rw [hregs r, if_neg (by omega), if_neg (by omega), if_neg (by omega)]
  · intro sec2
    rw [key sec2, key sec]

/-- Witness for `setAlarm_alarm2`: `setAlarm(ALM2_EVERY_MINUTE = 0x8E, 30, 15, 0, 1)`. -/
theorem setAlarm_alarm2_witness :
    (0x8E &&& 0x80 ≠ 0) ∧
    (setAlarm Driver.fresh 0x8E 30 15 0 1).writes = [(0x0B, 0x95), (0x0C, 0x80), (0x0D, 0x81)] ∧
    setAlarm Driver.fresh 0x8E 0 15 0 1 = setAlarm Driver.fresh 0x8E 30 15 0 1 :=
  ⟨by decide,
   (setAlarm_alarm2 Driver.fresh 0x8E 30 15 0 1 (by decide)).1,
   (setAlarm_alarm2 Driver.fresh 0x8E 30 15 0 1 (by decide)).2.2.2 0⟩

/-! ## Claims on the control and status registers -/

/-- C11: for every status-register value `s` and control-register value `c`,
`checkAlarm` returns `(s AND c) AND 0x03`, writes back to the status register 0x0F the
value `s` with bits 0 and 1 cleared and bits 2..7 unchanged (one write, of `s AND 0xFC`),
and changes no other register. -/
theorem checkAlarm_result (d : Driver) (s c : Nat)
    (hs : d.regs 0x0F = s) (hc : d.regs 0x0E = c) (hs8 : s < 256) (hc8 : c < 256) :
    (checkAlarm d).1 = (s &&& c) &&& 0x03 ∧
    (checkAlarm d).2.writes = d.writes ++ [(0x0F, s &&& 0xFC)] ∧
    ((s &&& 0xFC) % 4 = 0 ∧ (s &&& 0xFC) / 4 = s / 4) ∧
    (∀ r, (checkAlarm d).2.regs r = if r = 0x0F then s &&& 0xFC else d.regs r) ∧
    (checkAlarm d).2.YEAR0 = d.YEAR0 := by
  obtain ⟨k1, k2, k3, k4⟩ := clear_alarm_flags s hs8
  have hrs : _readRegister d REG_STATUS = s := by
    show d.regs 0x0F % 256 = s
    rw [hs, Nat.mod_eq_of_lt hs8]
  have hrc : _readRegister d REG_CON = c := by
    show d.regs 0x0E % 256 = c
    rw [hc, Nat.mod_eq_of_lt hc8]
  have key : checkAlarm d = ((c &&& s) &&& 0x03, _writeRegister d REG_STATUS (s &&& 0xFC)) := by
    unfold checkAlarm
    simp only [hrs, hrc, k1]
  rw [key]
  refine ⟨?_, ?_, ⟨k2, k3⟩, ?_, rfl⟩
  · show (c &&& s) &&& 0x03 = (s &&& c) &&& 0x03
    rw [Nat.and_comm c s]
  · rw [writeRegister_writes, Nat.mod_eq_of_lt k4]
    rfl
  · intro r
    rw [writeRegister_regs, Nat.mod_eq_of_lt k4]
    rfl

/-- Witness for `checkAlarm_result`: status `0x8B`, control `0x05`; Alarm 1 is reported
and the status register is left at `0x88`. -/
theorem checkAlarm_result_witness :
    (checkAlarm (_writeRegister (_writeRegister Driver.fresh 0x0F 0x8B) 0x0E 0x05)).1 = 1 ∧
    (checkAlarm (_writeRegister (_writeRegister Driver.fresh 0x0F 0x8B) 0x0E 0x05)).2.regs 0x0F
      = 0x88 := by
  obtain ⟨h1, -, -, h4, -⟩ :=
    checkAlarm_result (_writeRegister (_writeRegister Driver.fresh 0x0F 0x8B) 0x0E 0x05)
      0x8B 0x05 (by decide) (by decide) (by decide) (by decide)
  exact ⟨h1, h4 0x0F⟩

/-- C16: for every control-register value `c` and every mode `m`, `setOutput` performs
one register write, to register 0x0E, of a value whose bits 3..7 equal those of `c` and
whose bits (INTCN, A2IE, A1IE) = (bit 2, bit 1, bit 0) are (0,0,0) for SQWAVE, (1,0,1)
for ALARM1, (1,1,0) for ALARM2 and (1,1,1) for ALARMx; no other register changes. -/
theorem setOutput_low_bits (d : Driver) (c : Nat) (m : MODES_t)
    (hc : d.regs 0x0E = c) (hc8 : c < 256) :
    ∃ v, (setOutput d m).writes = d.writes ++ [(0x0E, v)] ∧ v / 8 = c / 8 ∧
      (v / 4 % 2, v / 2 % 2, v % 2) =
        (match m with
         | MODES_t.SQWAVE => (0, 0, 0)
         | MODES_t.ALARM1 => (1, 0, 1)
         | MODES_t.ALARM2 => (1, 1, 0)
         | MODES_t.ALARMx => (1, 1, 1)) ∧
      (∀ r, (setOutput d m).regs r = if r = 0x0E then v else d.regs r) ∧
      (setOutput d m).YEAR0 = d.YEAR0 := by
  obtain ⟨v, hv, hlt, h8, hbits⟩ := setOutput_value d c m hc hc8
  refine ⟨v, ?_, h8, hbits, ?_, ?_⟩
  · rw [hv, writeRegister_writes, Nat.mod_eq_of_lt hlt]
    rfl
  · intro r
    rw [hv, writeRegister_regs, Nat.mod_eq_of_lt hlt]
    rfl
  · rw [hv]
    rfl

/-- Witness for `setOutput_low_bits`: control register `0xFA`, mode ALARM1; the byte
written is `0xFD`. -/
theorem setOutput_low_bits_witness :
    (setOutput (_writeRegister Driver.fresh 0x0E 0xFA) MODES_t.ALARM1).regs 0x0E = 0xFD ∧
    ∃ v, (setOutput (_writeRegister Driver.fresh 0x0E 0xFA) MODES_t.ALARM1).writes =
        (_writeRegister Driver.fresh 0x0E 0xFA).writes ++ [(0x0E, v)] ∧ v / 8 = 0xFA / 8 := by
  refine ⟨by decide, ?_⟩
  obtain ⟨v, h1, h2, -⟩ :=
    setOutput_low_bits (_writeRegister Driver.fresh 0x0E 0xFA) 0xFA MODES_t.ALARM1 (by decide)
      (by decide)
  exact ⟨v, h1, h2⟩

/-! ## Claims on writing and reading back -/

/-- C12: for every 8-bit `date`, `mon` and every `year`, `epochYear` up to 9999,
`setDate` writes registers if and only if `1 ≤ date ≤ 31`, `1 ≤ mon ≤ 12` and
`epochYear ≤ year ≤ epochYear + 99`; when it writes, exactly the registers 0x06, 0x05,
0x04 receive, in this order, `encode(year - epochYear)`, `encode(mon)`, `encode(date)`
and every other register is unchanged; when it does not, no register changes. -/
theorem setDate_accepts_iff (d : Driver) (date mon year epochYear : Nat)
    (hdate : date < 256) (hmon : mon < 256) (hyear : year ≤ 9999) (hepoch : epochYear ≤ 9999) :
    ((setDate d date mon year epochYear).writes ≠ d.writes ↔
      (1 ≤ date ∧ date ≤ 31) ∧ (1 ≤ mon ∧ mon ≤ 12) ∧
        (epochYear ≤ year ∧ year ≤ epochYear + 99)) ∧
    ((1 ≤ date ∧ date ≤ 31) ∧ (1 ≤ mon ∧ mon ≤ 12) ∧
        (epochYear ≤ year ∧ year ≤ epochYear + 99) →
      (setDate d date mon year epochYear).writes = d.writes ++
        [(0x06, _encode (year - epochYear)), (0x05, _encode mon), (0x04, _encode date)] ∧
      (∀ r, (setDate d date mon year epochYear).regs r =
        if r = 0x06 then _encode (year - epochYear)
        else if r = 0x05 then _encode mon
        else if r = 0x04 then _encode date
        else d.regs r)) ∧
    (¬ ((1 ≤ date ∧ date ≤ 31) ∧ (1 ≤ mon ∧ mon ≤ 12) ∧
        (epochYear ≤ year ∧ year ≤ epochYear + 99)) →
      (setDate d date mon year epochYear).regs = d.regs) := by
  have hacc := setDate_of_valid d date mon year epochYear
  have hrej : ¬ ((1 ≤ date ∧ date ≤ 31) ∧ (1 ≤ mon ∧ mon ≤ 12) ∧
      (epochYear ≤ year ∧ year ≤ epochYear + 99)) →
      setDate d date mon year epochYear = { d with YEAR0 := epochYear } := by
    intro hv
    unfold setDate
    simp only []
    rw [if_neg]
    omega
  have hy := encode_lt (year - epochYear)
  have hm := encode_lt mon
  have hd := encode_lt date
  refine ⟨⟨?_, ?_⟩, ?_, ?_⟩
  · intro hne
    by_contra hv
    rw [hrej hv] at hne
    exact hne rfl
  · intro hv
    rw [hacc hv]
    simp [writeRegister_writes]
  · intro hv
    rw [hacc hv]
    refine ⟨?_, ?_⟩
    · simp only [writeRegister_writes, Nat.mod_eq_of_lt hy, Nat.mod_eq_of_lt hm,
        Nat.mod_eq_of_lt hd, List.append_assoc, List.cons_append, List.nil_append]
    · intro r
      simp only [writeRegister_regs, Nat.mod_eq_of_lt hy, Nat.mod_eq_of_lt hm,
        Nat.mod_eq_of_lt hd]
      split_ifs <;> first | rfl | omega
  · intro hv
    rw [hrej hv]

/-- Witness for `setDate_accepts_iff`: 2099-12-31 under the Epoch Year 2000 is written,
1999-01-01 under the Epoch Year 2000 is rejected. -/
theorem setDate_accepts_iff_witness :
    (setDate Driver.fresh 31 12 2099 2000).writes = [(0x06, 0x99), (0x05, 0x12), (0x04, 0x31)] ∧
    (setDate Driver.fresh 1 1 1999 2000).regs = Driver.fresh.regs :=
  ⟨((setDate_accepts_iff Driver.fresh 31 12 2099 2000 (by decide) (by decide) (by decide)
      (by decide)).2.1 (by decide)).1,
   (setDate_accepts_iff Driver.fresh 1 1 1999 2000 (by decide) (by decide) (by decide)
      (by decide)).2.2 (by decide)⟩

/-- C19: for every `sec`, `min` in 0..59, `hour` in 0..23, `date` in 1..31, `mon` in
1..12 and every `year`, `epochYear` up to 9999 with `epochYear ≤ year ≤ epochYear + 99`,
after `setTime(sec, min, hour)` followed by `setDate(date, mon, year, epochYear)`,
`getTime()` returns a record with exactly these `sec`, `min`, `hour`, `date`, `mon` and
`year`, the chip being a register array in which a read returns the last value written. -/
theorem set_then_get (d : Driver) (sec min hour date mon year epochYear : Nat)
    (hs : sec ≤ 59) (hm : min ≤ 59) (hh : hour ≤ 23)
    (hd1 : 1 ≤ date) (hd2 : date ≤ 31) (hm1 : 1 ≤ mon) (hm2 : mon ≤ 12)
    (hy1 : epochYear ≤ year) (hy2 : year ≤ epochYear + 99)
    (hyear : year ≤ 9999) (_hepoch : epochYear ≤ 9999) :
    (getTime (setDate (setTime d sec min hour) date mon year epochYear)).1.sec = sec ∧
    (getTime (setDate (setTime d sec min hour) date mon year epochYear)).1.min = min ∧
    (getTime (setDate (setTime d sec min hour) date mon year epochYear)).1.hour = hour ∧
    (getTime (setDate (setTime d sec min hour) date mon year epochYear)).1.date = date ∧
    (getTime (setDate (setTime d sec min hour) date mon year epochYear)).1.mon = mon ∧
    (getTime (setDate (setTime d sec min hour) date mon year epochYear)).1.year = year := by
  rw [setTime_of_valid d sec min hour (by omega) (by omega) (by omega),
    setDate_of_valid _ date mon year epochYear ⟨⟨hd1, hd2⟩, ⟨hm1, hm2⟩, hy1, hy2⟩]
  have es := Nat.mod_eq_of_lt (encode_lt sec)
  have em := Nat.mod_eq_of_lt (encode_lt min)
  have eh := Nat.mod_eq_of_lt (encode_lt hour)
  have ed := Nat.mod_eq_of_lt (encode_lt date)
  have eo := Nat.mod_eq_of_lt (encode_lt mon)
  have ey := Nat.mod_eq_of_lt (encode_lt (year - epochYear))
  have eyy : (year - epochYear + epochYear) % 65536 = year := by omega
  rw [getTime_fields]
  simp [writeRegister_regs, writeRegister_YEAR0, es, em, eh, ed, eo, ey,
    decode_encode_lt_80 sec (by omega), decode_encode_lt_80 min (by omega),
    decodeH_encode_lt_24 hour (by omega), decode_encode_lt_80 date (by omega),
    decode_encode_lt_80 mon (by omega), decodeY_encode_lt_100 (year - epochYear) (by omega), eyy]

/-- Witness for `set_then_get`: 23:59:58 on 2024-02-29 under the Epoch Year 2000. -/
theorem set_then_get_witness :
    (getTime (setDate (setTime Driver.fresh 58 59 23) 29 2 2024 2000)).1.hour = 23 ∧
    (getTime (setDate (setTime Driver.fresh 58 59 23) 29 2 2024 2000)).1.year = 2024 :=
  ⟨(set_then_get Driver.fresh 58 59 23 29 2 2024 2000 (by decide) (by decide) (by decide)
      (by decide) (by decide) (by decide) (by decide) (by decide) (by decide) (by decide)
      (by decide)).2.2.1,
   (set_then_get Driver.fresh 58 59 23 29 2 2024 2000 (by decide) (by decide) (by decide)
      (by decide) (by decide) (by decide) (by decide) (by decide) (by decide) (by decide)
      (by decide)).2.2.2.2.2⟩

/-! ## Further claims on the calendar engine -/

/-- C13: for every Epoch Year and every 32-bit unsigned `s`, `makeDateTime` returns a
record with `dow = ((s / 86400) + 3) mod 7 + 1`; hence `dow` is in 1..7, equals 4 for
every `s < 86400`, and for every `s` with `s + 86400 < 2^32` the record for `s + 86400`
has `dow` equal to `(dow of s) mod 7 + 1`. -/
theorem makeDateTime_weekday (YEAR0 s : Nat) (hs : s < 2 ^ 32) :
    ∃ t, makeDateTime YEAR0 s = some t ∧ t.dow = (s / 86400 + 3) % 7 + 1 ∧
      1 ≤ t.dow ∧ t.dow ≤ 7 ∧ (s < 86400 → t.dow = 4) ∧
      (s + 86400 < 2 ^ 32 →
        ∃ t2, makeDateTime YEAR0 (s + 86400) = some t2 ∧ t2.dow = t.dow % 7 + 1) := by
  obtain ⟨t, h0, -, -, -, hd⟩ := makeDateTime_clock YEAR0 s
  refine ⟨t, h0, hd, by omega, by omega, fun h => by omega, ?_⟩
  intro _
  obtain ⟨t2, g0, -, -, -, gd⟩ := makeDateTime_clock YEAR0 (s + 86400)
  exact ⟨t2, g0, by omega⟩


/-- Witness for `makeDateTime_weekday`: `s = 3 * 86400 + 5` falls on a Sunday (7) and
the day after on a Monday (1). -/
theorem makeDateTime_weekday_witness :
    (3 * 86400 + 5 : Nat) < 2 ^ 32 ∧
    ∃ t, makeDateTime 1970 (3 * 86400 + 5) = some t ∧ t.dow = (3 * 86400 + 5) / 86400 % 7 + 4 ∧
      ∃ t2, makeDateTime 1970 (3 * 86400 + 5 + 86400) = some t2 ∧ t2.dow = t.dow % 7 + 1 := by
  refine ⟨by decide, ?_⟩
  obtain ⟨t, h0, h1, -, -, -, h5⟩ := makeDateTime_weekday 1970 (3 * 86400 + 5) (by decide)
  exact ⟨t, h0, h1, h5 (by decide)⟩

/-- C14: for every Epoch Year and every 32-bit unsigned `s`, `makeDateTime` returns a
record with `hour ≤ 23`, `min ≤ 59`, `sec ≤ 59` and
`hour * 3600 + min * 60 + sec = s mod 86400`; storing the values in the 8-bit fields
of `Time` truncates nothing. -/
theorem makeDateTime_time_of_day (YEAR0 s : Nat) (_hs : s < 2 ^ 32) :
    ∃ t, makeDateTime YEAR0 s = some t ∧ t.hour ≤ 23 ∧ t.min ≤ 59 ∧ t.sec ≤ 59 ∧
      t.hour * 3600 + t.min * 60 + t.sec = s % 86400 := by
  obtain ⟨t, h0, hh, hm, hsec, -⟩ := makeDateTime_clock YEAR0 s
  exact ⟨t, h0, by omega, by omega, by omega, by omega⟩

/-- Witness for `makeDateTime_time_of_day`: `s = 86399` is 23:59:59. -/
theorem makeDateTime_time_of_day_witness :
    (86399 : Nat) < 2 ^ 32 ∧
    ∃ t, makeDateTime 1970 86399 = some t ∧ t.hour ≤ 23 ∧ t.min ≤ 59 ∧ t.sec ≤ 59 ∧
      t.hour * 3600 + t.min * 60 + t.sec = 86399 % 86400 :=
  ⟨by decide, makeDateTime_time_of_day 1970 86399 (by decide)⟩

/-- C20 (as amended): with the Epoch Year 1970, for every 32-bit unsigned `s`,
`makeDateTime s` returns a record, and `getUnixTime (makeDateTime s) = s` holds exactly
when the year `y` of that record satisfies `y ≤ 2099` and `y mod 4 ≠ 1`, or the date is
in January or February 2100, or `y` is 2101 or 2105.  In particular it holds for every
`s` with `y ≤ 2099` and `y mod 4 ≠ 1`; these years are not all the years on which the
day count of `getUnixTime` equals the true number of days from 1970-01-01. -/
theorem calendar_roundtrip_domain (s : Nat) (hs : s < 2 ^ 32) :
    ∃ t, makeDateTime 1970 s = some t ∧
      (t.year ≤ 2099 → t.year % 4 ≠ 1 → getUnixTime 1970 t = some s) ∧
      (getUnixTime 1970 t = some s ↔
        (t.year ≤ 2099 ∧ t.year % 4 ≠ 1) ∨ (t.year = 2100 ∧ t.mon ≤ 2) ∨
          t.year = 2101 ∨ t.year = 2105) := by
  obtain ⟨t, h0, hiff⟩ := roundtrip_1970_iff s hs
  exact ⟨t, h0, fun h1 h2 => hiff.2 (Or.inl ⟨h1, h2⟩), hiff⟩

/-- Witness for `calendar_roundtrip_domain` at `s = 951782400` (2000-02-29 00:00:00). -/
theorem calendar_roundtrip_domain_witness :
    (951782400 : Nat) < 2 ^ 32 ∧
    makeDateTime 1970 951782400 = some
      { year := 2000, mon := 2, date := 29, hour := 0, min := 0, sec := 0, dow := 2 } ∧
    ∃ t, makeDateTime 1970 951782400 = some t ∧
      (t.year ≤ 2099 → t.year % 4 ≠ 1 → getUnixTime 1970 t = some 951782400) := by
  refine ⟨by decide, by decide, ?_⟩
  obtain ⟨t, h0, h1, -⟩ := calendar_roundtrip_domain 951782400 (by decide)
  exact ⟨t, h0, h1⟩

/-- C20 fails as stated: `s = 4133980800` is a 32-bit value, `makeDateTime` maps it to
2101-01-01 00:00:00, a year with `y > 2099` and `y mod 4 = 1`, and still
`getUnixTime` maps that record back to `s`: the day count of `getUnixTime` equals the
true number of days in a year outside the stated ones. -/
theorem calendar_roundtrip_holds_2101 :
    (4133980800 : Nat) < 2 ^ 32 ∧
    makeDateTime 1970 4133980800 = some
      { year := 2101, mon := 1, date := 1, hour := 0, min := 0, sec := 0, dow := 6 } ∧
    ¬ (2101 ≤ 2099 ∧ 2101 % 4 ≠ 1) ∧
    (makeDateTime 1970 4133980800 >>= getUnixTime 1970) = some 4133980800 ∧
    daysFromEpoch 1970 2101 1 1 = (2101 - 1970) * 365 + (2101 - 1970) / 4 := by
  decide

/-! ## Claims on the bus transport -/

/-- C17: for every sequence `b0, .., b7` of levels the data line shows at the eight
successive samples, `_readByte` returns the sum over `i` of `b_i * 2^(7-i)`: the first
sampled bit becomes bit 7 and the last bit 0.  The data line is sampled exactly eight
times, once per clock pulse, after the data pin has been switched to input. -/
theorem readByte_msb_first (w : Wire) :
    _readByte w = some
      ((w.line w.samples).toNat * 2 ^ 7 + (w.line (w.samples + 1)).toNat * 2 ^ 6 +
       (w.line (w.samples + 2)).toNat * 2 ^ 5 + (w.line (w.samples + 3)).toNat * 2 ^ 4 +
       (w.line (w.samples + 4)).toNat * 2 ^ 3 + (w.line (w.samples + 5)).toNat * 2 ^ 2 +
       (w.line (w.samples + 6)).toNat * 2 ^ 1 + (w.line (w.samples + 7)).toNat * 2 ^ 0,
       { w with
         samples := w.samples + 8,
         trace := w.trace ++ PinOp.pinMode w._sda_pin INPUT ::
          (List.range 8).flatMap (fun i =>
            [PinOp.digitalWrite w._scl_pin HIGH,
             PinOp.digitalRead w._sda_pin (if w.line (w.samples + i) then HIGH else LOW),
             PinOp.delayMicroseconds 1,
             PinOp.digitalWrite w._scl_pin LOW]) }) := by
  obtain ⟨sda, scl, tr, line, k⟩ := w
  simp only [_readByte, pinMode]
  rw [readByteLoop_step _ _ _ _ _ _ _ _ (by decide), readByteLoop_step _ _ _ _ _ _ _ _ (by decide),
    readByteLoop_step _ _ _ _ _ _ _ _ (by decide), readByteLoop_step _ _ _ _ _ _ _ _ (by decide),
    readByteLoop_step _ _ _ _ _ _ _ _ (by decide), readByteLoop_step _ _ _ _ _ _ _ _ (by decide),
    readByteLoop_step _ _ _ _ _ _ _ _ (by decide), readByteLoop_step _ _ _ _ _ _ _ _ (by decide),
    _readByteLoop, if_neg (by decide), assemble_bits]
  simp [List.range, List.range.loop, List.flatMap, Nat.add_assoc]

/-- C18 (as amended): the calls `_sendStart(addr)` adds to the trace of GPIO calls are,
in this order: data pin to output, data line driven high, clock line driven high, data
line driven low, clock line driven low, and then the eight bits of `addr`, most
significant first, each put on the data line and followed by a clock pulse.  The data
line is driven low while the clock line is high (the clock was last driven high), and
the clock line is low when the shifting starts. -/
theorem sendStart_trace (w : Wire) (addr : Nat) :
    (_sendStart w addr).trace = w.trace ++
      [PinOp.pinMode w._sda_pin OUTPUT,
       PinOp.digitalWrite w._sda_pin HIGH,
       PinOp.digitalWrite w._scl_pin HIGH,
       PinOp.digitalWrite w._sda_pin LOW,
       PinOp.digitalWrite w._scl_pin LOW] ++
      (List.range 8).flatMap (fun i =>
        [PinOp.digitalWrite w._sda_pin ((addr >>> (7 - i)) % 2),
         PinOp.digitalWrite w._scl_pin HIGH,
         PinOp.digitalWrite w._scl_pin LOW]) ∧
    pinLevel w._scl_pin (w.trace ++
      [PinOp.pinMode w._sda_pin OUTPUT,
       PinOp.digitalWrite w._sda_pin HIGH,
       PinOp.digitalWrite w._scl_pin HIGH]) = some HIGH ∧
    pinLevel w._scl_pin (w.trace ++
      [PinOp.pinMode w._sda_pin OUTPUT,
       PinOp.digitalWrite w._sda_pin HIGH,
       PinOp.digitalWrite w._scl_pin HIGH,
       PinOp.digitalWrite w._sda_pin LOW,
       PinOp.digitalWrite w._scl_pin LOW]) = some LOW := by
  refine ⟨?_, ?_, ?_⟩
  · obtain ⟨sda, scl, tr, line, k⟩ := w
    simp [_sendStart, shiftOut, pinMode, digitalWrite, List.range, List.range.loop,
      List.flatMap, MSBFIRST, LSBFIRST]
  · apply pinLevel_append
    simp [pinLevel]
  · apply pinLevel_append
    simp [pinLevel]


/-- C18 fails as stated: in the trace of `_sendStart(0xD0)` on pins 20 (data) and 21
(clock), the call after the clock is driven high is the write of low to the data line,
and at that moment the clock line is high, not low. -/
theorem sendStart_data_low_while_clock_high :
    (_sendStart Wire.idle 0xD0).trace.take 5 =
      [PinOp.pinMode 20 OUTPUT, PinOp.digitalWrite 20 HIGH, PinOp.digitalWrite 21 HIGH,
       PinOp.digitalWrite 20 LOW, PinOp.digitalWrite 21 LOW] ∧
    pinLevel 21 ((_sendStart Wire.idle 0xD0).trace.take 3) = some HIGH ∧
    pinLevel 21 ((_sendStart Wire.idle 0xD0).trace.take 3) ≠ some LOW := by
  decide

/-! ## Claim on totality and table bounds of `makeDateTime` -/

/-- C21: for every Epoch Year and every 32-bit unsigned `s`, both loops of
`makeDateTime` terminate and `makeDateTime` returns: the year loop ends on a day count
below the length of the year it stops at, the month loop ends on a month counter of at
most 11, and every index used on the 12-entry table `calender` (index 0 before the
loop, then the indices the loop reads) is in 0..11. -/
theorem makeDateTime_total (YEAR0 s : Nat) (_hE : YEAR0 < 65536) (_hs : s < 2 ^ 32) :
    ∃ r y r2 m t,
      yearLoop (s / 86400 + 1) (s / 86400) YEAR0 = some (r, y) ∧ r < YEARSIZE y ∧
      monthLoop y 13 r 0 31 = some (r2, m) ∧ m ≤ 11 ∧
      (∀ i ∈ 0 :: monthLoopReads y 13 r 0 31, i ≤ 11) ∧
      makeDateTime YEAR0 s = some t ∧ t.year = y ∧ t.mon = m + 1 ∧ t.date = r2 + 1 := by
  obtain ⟨r, y, h1, h2⟩ := yearLoop_total (s / 86400 + 1) (s / 86400) YEAR0 (by omega)
  obtain ⟨r2, m, k1, k2, k3, -⟩ := monthLoop_spec y r h2
  obtain ⟨-, hreads⟩ := monthLoopReads_of_some y 13 r 0 31 r2 m (by decide) k1
  have hlen : gregorianMonthLength y (m + 1) ≤ 31 := by
    unfold gregorianMonthLength
    interval_cases m <;> simp only [Nat.reduceAdd, Nat.reduceSub, List.getD_cons_succ,
      List.getD_cons_zero, Nat.succ_ne_zero, if_false] <;> first | omega | (split <;> omega)
  have hmk : makeDateTime YEAR0 s = some
      { sec := (s % 86400 % 60) % 256, min := (s % 86400 % 3600 / 60) % 256,
        hour := (s % 86400 / 3600) % 256, dow := ((s / 86400 + 3) % 7 + 1) % 256,
        year := y, mon := (m + 1) % 256, date := (r2 + 1) % 256 } := by
    simp only [makeDateTime, SECS_DAY, h1, calender, List.getElem?_cons_zero, k1]
  refine ⟨r, y, r2, m, _, h1, h2, k1, by omega, ?_, hmk, rfl, ?_, ?_⟩
  · intro i hi
    rw [hreads] at hi
    simp only [List.mem_cons, List.mem_range'_1] at hi
    omega
  · exact Nat.mod_eq_of_lt (by omega)
  · exact Nat.mod_eq_of_lt (by omega)

/-- Witness for `makeDateTime_total`: the largest 32-bit value under the Epoch Year 1970
(2106-02-07 06:28:15, one read of the table inside the loop) and a run under the Epoch
Year 65535 in which the 16-bit year counter wraps to 0.  For contrast, the month loop
started on day 365 of the common year 2023 does leave the table, at index 12. -/
theorem makeDateTime_total_witness :
    (∃ r y r2 m t,
      yearLoop (4294967295 / 86400 + 1) (4294967295 / 86400) 1970 = some (r, y) ∧
      r < YEARSIZE y ∧ monthLoop y 13 r 0 31 = some (r2, m) ∧ m ≤ 11 ∧
      (∀ i ∈ 0 :: monthLoopReads y 13 r 0 31, i ≤ 11) ∧
      makeDateTime 1970 4294967295 = some t ∧ t.year = y ∧ t.mon = m + 1 ∧
      t.date = r2 + 1) ∧
    makeDateTime 1970 4294967295 = some
      { year := 2106, mon := 2, date := 7, hour := 6, min := 28, sec := 15, dow := 7 } ∧
    monthLoopReads 2106 13 37 0 31 = [1] ∧
    makeDateTime 65535 (366 * 86400) = some
      { year := 0, mon := 1, date := 2, hour := 0, min := 0, sec := 0, dow := 6 } ∧
    monthLoop 2023 13 365 0 31 = none ∧
    12 ∈ monthLoopReads 2023 13 365 0 31 :=
  ⟨makeDateTime_total 1970 4294967295 (by decide) (by decide),
   by decide, by decide, by decide, by decide, by decide⟩

end DS3231
